import Mathlib

/-! The relay handler `Send` of chore, its tenant registry and its template handlers.

A shallow embedding of `internal/server/handler/send.go`,
`internal/server/registry/store.go` and the handlers `postTemplate` and
`deleteTemplate` of `internal/api/template.go`.

The handler talks to three collaborators that it fetches from the request
context (the store `inf.CRUD`, the template engine `translate.Template`, the
HTTP client `request.Client`) and to library decoders (`yaml.Unmarshal`,
`json.Unmarshal`, `path.Join`).  None of them is part of the handler, so each
one is a parameter of the embedding: the theorems hold for every behaviour of
these collaborators.

What the handler does to the outside world is recorded in a `Resp` value that
is threaded through the loops: the store paths it read, the outbound calls it
issued, the bytes it handed to `c.SendStream`, and the response body.
-/

namespace Chore

/-- Go strings and byte slices are both byte sequences; `Send` only copies,
compares with the empty string and concatenates them. -/
abbrev Bytes := String

/-- A value held in a Go `interface{}` after `json.Unmarshal`. -/
inductive Any where
  | nil
  | bool (b : Bool)
  | number (text : String)
  | string (s : String)
  | array (items : List Any)
  | object (fields : List (String × Any))

/-- Go `map[string]interface{}`; `m[k]` is `List.lookup k m`, the nil map is `[]`. -/
abbrev GoMap := List (String × Any)

/-- Go `map[string]string`. -/
abbrev Headers := List (String × String)

/-- The type assertion `v.(string)` on the result of a map index: `none` is the
run-time panic (missing key, nil, or a value of another type). -/
def assertString : Option Any → Option String
  | some (Any.string s) => some s
  | _ => none

/-- The arguments of one `client.Send(ctx, url, method, headers, payload)`. -/
structure Call where
  url : String
  method : String
  headers : Headers
  body : Bytes
deriving DecidableEq, Repr

/-- The error returned by the store: `GetCode()` and `Error()`. -/
structure CRUDError where
  code : Nat
  message : String
deriving DecidableEq, Repr

/-- The one method of `inf.CRUD` that `Send` uses. -/
structure CRUD where
  Get : String → Except CRUDError (List Bytes)

/-- The template engine: `Ext(values, template)`. -/
structure Template where
  Ext : GoMap → String → Except String Bytes

/-- The relay client.  Its answer may depend on the calls issued earlier in the
same request (first argument, in dispatch order). -/
structure Client where
  Send : List Call → Call → Except String Bytes

/-- Library functions used by `Send`. -/
structure Lib where
  /-- Go `path.Join(a, b)`. -/
  pathJoin : String → String → String
  /-- Go `yaml.Unmarshal(body, &values)` with `values map[string]interface{}`. -/
  yamlValues : Bytes → Except String GoMap
  /-- Go `json.Unmarshal(data, &m)` with `m map[string]interface{}`. -/
  jsonUnmarshal : Bytes → Except String GoMap
  /-- Go `yaml.Unmarshal([]byte(s), &headers)` with `headers map[string]string`. -/
  yamlHeaders : String → Except String Headers

/-- The request context `c *fiber.Ctx` as far as `Send` reads it.  The three
`Locals` are `none` when the type assertion on them would fail. -/
structure Ctx where
  storeHandler : Option CRUD
  templateEngine : Option Template
  client : Option Client
  /-- Route parameter `c.Params("key")`. -/
  key : String
  /-- Route parameter `c.Params("*")`. -/
  params : String
  /-- Raw query string `c.Request().URI().QueryString()`. -/
  queryString : String
  /-- Request body `c.Body()`. -/
  body : Bytes

/-- How the handler ends. -/
inductive Outcome where
  /-- `c.SendStatus(code)` returned nil. -/
  | status (code : Nat)
  /-- The handler returned `fiber.NewError(code, message)`. -/
  | error (code : Nat) (message : String)
  /-- A type assertion failed and the goroutine panicked. -/
  | panic
deriving DecidableEq, Repr

/-- Everything `Send` did that is visible outside it. -/
structure Resp where
  /-- Paths passed to `crud.Get`, in order. -/
  lookups : List String
  /-- Outbound calls passed to `client.Send`, in order. -/
  calls : List Call
  /-- Data handed to `c.SendStream`, in order. -/
  replies : List Bytes
  /-- Response body held by the context. -/
  body : Bytes
deriving DecidableEq, Repr

/-- The response before the handler runs. -/
def Resp.empty : Resp := ⟨[], [], [], ""⟩

/-- Record one `crud.Get(path)`. -/
def Resp.logLookup (r : Resp) (path : String) : Resp :=
  { r with lookups := r.lookups ++ [path] }

/-- Record one `client.Send(...)`. -/
def Resp.logCall (r : Resp) (call : Call) : Resp :=
  { r with calls := r.calls ++ [call] }

/-- Fiber `c.SendStream(bytes.NewReader(data))`: "SendStream sets response body
stream"; the stream set by an earlier invocation is dropped. -/
def Resp.SendStream (r : Resp) (data : Bytes) : Resp :=
  { r with replies := r.replies ++ [data], body := data }

/-- Fiber `utils.StatusMessage`, for the one status `Send` passes. -/
def StatusMessage (code : Nat) : String :=
  if code = 200 then "OK" else ""

/-- Fiber `c.SendStatus(status)`: sets the status and, only when there is no
response body, sets the body to the status message. -/
def Resp.SendStatus (r : Resp) (status : Nat) : Resp × Outcome :=
  (if r.body = "" then { r with body := StatusMessage status } else r, Outcome.status status)

/-- Status `fiber.ErrBadRequest.Code`. -/
def StatusBadRequest : Nat := 400

/-- Status `http.StatusInternalServerError`. -/
def StatusInternalServerError : Nat := 500

/-- Status `fiber.StatusOK`. -/
def StatusOK : Nat := 200

/-- Lines 101-104: the query string with its leading `?` when non-empty. -/
def querySuffix (ctx : Ctx) : String :=
  if ctx.queryString ≠ "" then "?" ++ ctx.queryString else ctx.queryString

/-- Lines 79-84: decode every raw authentication, stopping at the first error. -/
def decodeAuths (lib : Lib) : List Bytes → Except String (List GoMap)
  | [] => Except.ok []
  | raw :: rest =>
    match lib.jsonUnmarshal raw with
    | Except.error e => Except.error e
    | Except.ok m =>
      match decodeAuths lib rest with
      | Except.error e => Except.error e
      | Except.ok ms => Except.ok (m :: ms)

/-- Lines 92-117: the loop over the decoded authentications for one rendered
payload.  `some o` is an early return with outcome `o`. -/
def sendAuths (lib : Lib) (client : Client) (ctx : Ctx) (payload : Bytes) :
    List GoMap → Resp → Resp × Option Outcome
  | [], r => (r, none)
  | auth :: rest, r =>
    match assertString (List.lookup "headers" auth) with
    | none => (r, some Outcome.panic)
    | some headersString =>
      match lib.yamlHeaders headersString with
      | Except.error e => (r, some (Outcome.error StatusInternalServerError e))
      | Except.ok headers =>
        match assertString (List.lookup "URL" auth) with
        | none => (r, some Outcome.panic)
        | some url =>
          match assertString (List.lookup "method" auth) with
          | none => (r, some Outcome.panic)
          | some method =>
            match client.Send r.calls ⟨url ++ "/" ++ ctx.params ++ querySuffix ctx, method, headers, payload⟩ with
            | Except.error e =>
              (r.logCall ⟨url ++ "/" ++ ctx.params ++ querySuffix ctx, method, headers, payload⟩,
                some (Outcome.error StatusInternalServerError e))
            | Except.ok data =>
              sendAuths lib client ctx payload rest
                ((r.logCall ⟨url ++ "/" ++ ctx.params ++ querySuffix ctx, method, headers, payload⟩).SendStream data)

/-- Lines 86-118: the loop over the templates of one bind. -/
def sendTemplates (lib : Lib) (engine : Template) (client : Client) (ctx : Ctx) (values : GoMap)
    (authentications : List GoMap) : List Bytes → Resp → Resp × Option Outcome
  | [], r => (r, none)
  | template :: rest, r =>
    match engine.Ext values template with
    | Except.error e => (r, some (Outcome.error StatusInternalServerError e))
    | Except.ok payload =>
      match sendAuths lib client ctx payload authentications r with
      | (r1, some o) => (r1, some o)
      | (r1, none) => sendTemplates lib engine client ctx values authentications rest r1

/-- Lines 60-118: the body of the loop over the binds, for one stored bind. -/
def sendBind (lib : Lib) (crud : CRUD) (engine : Template) (client : Client) (ctx : Ctx)
    (values : GoMap) (data : Bytes) (r : Resp) : Resp × Option Outcome :=
  match lib.jsonUnmarshal data with
  | Except.error e => (r, some (Outcome.error StatusInternalServerError e))
  | Except.ok bind =>
    match assertString (List.lookup "template" bind) with
    | none => (r, some Outcome.panic)
    | some templateName =>
      match crud.Get (lib.pathJoin "templates" templateName) with
      | Except.error err =>
        (r.logLookup (lib.pathJoin "templates" templateName), some (Outcome.error err.code err.message))
      | Except.ok templates =>
        match assertString (List.lookup "authentication" bind) with
        | none => (r.logLookup (lib.pathJoin "templates" templateName), some Outcome.panic)
        | some authenticationName =>
          match crud.Get (lib.pathJoin "auths" authenticationName) with
          | Except.error err =>
            ((r.logLookup (lib.pathJoin "templates" templateName)).logLookup
                (lib.pathJoin "auths" authenticationName),
              some (Outcome.error err.code err.message))
          | Except.ok authenticationsRaw =>
            match decodeAuths lib authenticationsRaw with
            | Except.error e =>
              ((r.logLookup (lib.pathJoin "templates" templateName)).logLookup
                  (lib.pathJoin "auths" authenticationName),
                some (Outcome.error StatusInternalServerError e))
            | Except.ok authentications =>
              sendTemplates lib engine client ctx values authentications templates
                ((r.logLookup (lib.pathJoin "templates" templateName)).logLookup
                  (lib.pathJoin "auths" authenticationName))

/-- Lines 59-119: the loop over the stored binds. -/
def sendBinds (lib : Lib) (crud : CRUD) (engine : Template) (client : Client) (ctx : Ctx)
    (values : GoMap) : List Bytes → Resp → Resp × Option Outcome
  | [], r => (r, none)
  | data :: rest, r =>
    match sendBind lib crud engine client ctx values data r with
    | (r1, some o) => (r1, some o)
    | (r1, none) => sendBinds lib crud engine client ctx values rest r1

/-- The handler `Send` (lines 25-122). -/
def Send (lib : Lib) (ctx : Ctx) : Resp × Outcome :=
  match ctx.storeHandler with
  | none => (Resp.empty, Outcome.panic)
  | some crud =>
    if ctx.key = "" then
      (Resp.empty, Outcome.error StatusBadRequest "bind key not found")
    else
      match lib.yamlValues ctx.body with
      | Except.error e => (Resp.empty, Outcome.error StatusInternalServerError e)
      | Except.ok values =>
        match crud.Get (lib.pathJoin "binds" ctx.key) with
        | Except.error err =>
          (Resp.empty.logLookup (lib.pathJoin "binds" ctx.key), Outcome.error err.code err.message)
        | Except.ok datas =>
          match ctx.templateEngine with
          | none => (Resp.empty.logLookup (lib.pathJoin "binds" ctx.key), Outcome.panic)
          | some engine =>
            match ctx.client with
            | none => (Resp.empty.logLookup (lib.pathJoin "binds" ctx.key), Outcome.panic)
            | some client =>
              match sendBinds lib crud engine client ctx values datas
                  (Resp.empty.logLookup (lib.pathJoin "binds" ctx.key)) with
              | (r, some o) => (r, o)
              | (r, none) => r.SendStatus StatusOK

/-! ## The resolution algorithm as the specification words it

Section 4.5 of the specification: every bind is parsed into a `BindDef`, its
templates and authentications are fetched, every template is rendered, every
authentication is parsed into an `AuthenticationDef`, and one call is issued
per (bind, template, authentication) triple. -/

/-- Apply `f` to every element; `none` as soon as one application fails. -/
def traverse {α β : Type} (f : α → Option β) : List α → Option (List β)
  | [] => some []
  | a :: rest =>
    match f a with
    | none => none
    | some b =>
      match traverse f rest with
      | none => none
      | some bs => some (b :: bs)

/-- The `AuthenticationDef` of the data model: URL, method, and the header
mapping parsed from the serialized sub-document. -/
structure AuthenticationDef where
  URL : String
  method : String
  headers : Headers
deriving DecidableEq, Repr

/-- Read an `AuthenticationDef` off a decoded authentication document. -/
def authenticationDef (lib : Lib) (auth : GoMap) : Option AuthenticationDef :=
  match List.lookup "URL" auth, List.lookup "method" auth, List.lookup "headers" auth with
  | some (Any.string url), some (Any.string method), some (Any.string headersString) =>
    match lib.yamlHeaders headersString with
    | Except.ok headers => some ⟨url, method, headers⟩
    | Except.error _ => none
  | _, _, _ => none

/-- Parse one stored authentication entry. -/
def parseAuthentication (lib : Lib) (raw : Bytes) : Option AuthenticationDef :=
  match lib.jsonUnmarshal raw with
  | Except.ok auth => authenticationDef lib auth
  | Except.error _ => none

/-- Specification: target = auth.URL + "/" + routeSuffix + ("?" + queryString if non-empty). -/
def target (ctx : Ctx) (auth : AuthenticationDef) : String :=
  auth.URL ++ "/" ++ ctx.params ++ (if ctx.queryString = "" then "" else "?" ++ ctx.queryString)

/-- The call the specification prescribes for one rendered payload and one authentication. -/
def relayCall (ctx : Ctx) (payload : Bytes) (auth : AuthenticationDef) : Call :=
  ⟨target ctx auth, auth.method, auth.headers, payload⟩

/-- Render one template against the parsed payload; `none` on a render error. -/
def renderTemplate (engine : Template) (values : GoMap) (template : Bytes) : Option Bytes :=
  match engine.Ext values template with
  | Except.ok payload => some payload
  | Except.error _ => none

/-- One bind with everything it resolves to when no step fails. -/
structure Resolved where
  /-- Stored templates matching the bind's template prefix, in store order. -/
  templates : List Bytes
  /-- Stored authentications matching the bind's authentication prefix, in store order. -/
  authentications : List Bytes
  /-- The templates rendered against the payload, in the same order. -/
  payloads : List Bytes
  /-- The authentications parsed, in the same order. -/
  auths : List AuthenticationDef
deriving DecidableEq, Repr

/-- Resolve one stored bind (steps 3a-3c of the algorithm); `none` when a
lookup, decode or render step fails. -/
def resolveBind (lib : Lib) (crud : CRUD) (engine : Template) (values : GoMap) (data : Bytes) :
    Option Resolved :=
  match lib.jsonUnmarshal data with
  | Except.error _ => none
  | Except.ok bind =>
    match List.lookup "template" bind, List.lookup "authentication" bind with
    | some (Any.string templateName), some (Any.string authenticationName) =>
      match crud.Get (lib.pathJoin "templates" templateName),
          crud.Get (lib.pathJoin "auths" authenticationName) with
      | Except.ok templates, Except.ok authentications =>
        match traverse (renderTemplate engine values) templates,
            traverse (parseAuthentication lib) authentications with
        | some payloads, some auths => some ⟨templates, authentications, payloads, auths⟩
        | _, _ => none
      | _, _ => none
    | _, _ => none

/-- The nested enumeration binds (outer) x templates x authentications (inner). -/
def fanOut (ctx : Ctx) (binds : List Resolved) : List Call :=
  binds.flatMap fun b => b.payloads.flatMap fun payload => b.auths.map (relayCall ctx payload)

/-- The arguments prescribed for the call issued for a template and a decoded
authentication: target, method, parsed headers, and the rendered body. -/
def IsCallFor (lib : Lib) (engine : Template) (ctx : Ctx) (values : GoMap) (template : Bytes)
    (auth : GoMap) (c : Call) : Prop :=
  ∃ url method headersString headers,
    List.lookup "URL" auth = some (Any.string url) ∧
    List.lookup "method" auth = some (Any.string method) ∧
    List.lookup "headers" auth = some (Any.string headersString) ∧
    lib.yamlHeaders headersString = Except.ok headers ∧
    engine.Ext values template = Except.ok c.body ∧
    c.url = url ++ "/" ++ ctx.params ++ (if ctx.queryString = "" then "" else "?" ++ ctx.queryString) ∧
    c.method = method ∧ c.headers = headers

/-- The template is stored under the template prefix, and the authentication
under the authentication prefix, of one stored bind. -/
def IsPairOf (lib : Lib) (crud : CRUD) (data : Bytes) (template : Bytes) (auth : GoMap) : Prop :=
  ∃ bind templateName authenticationName templates raws auths,
    lib.jsonUnmarshal data = Except.ok bind ∧
    List.lookup "template" bind = some (Any.string templateName) ∧
    List.lookup "authentication" bind = some (Any.string authenticationName) ∧
    crud.Get (lib.pathJoin "templates" templateName) = Except.ok templates ∧
    crud.Get (lib.pathJoin "auths" authenticationName) = Except.ok raws ∧
    decodeAuths lib raws = Except.ok auths ∧
    template ∈ templates ∧ auth ∈ auths

/-- All outbound calls before the given position succeeded. -/
def AllOk (client : Client) (calls : List Call) : Prop :=
  ∀ pre c post, calls = pre ++ c :: post → ∃ data, client.Send pre c = Except.ok data

/-- The state of a loop with respect to transport failures: either every call
issued so far was answered, or the last call issued failed and the loop has
returned that failure as a 500 error. -/
def TransportInv (client : Client) (res : Resp × Option Outcome) : Prop :=
  AllOk client res.1.calls ∨
    ∃ pre c e, res.1.calls = pre ++ [c] ∧ AllOk client pre ∧
      client.Send pre c = Except.error e ∧
      res.2 = some (Outcome.error StatusInternalServerError e)

/-! ## A concrete deployment (the scenario of the specification) -/

/-- Stored bind `binds/orders`. -/
def bindOrders : Bytes := "\x7b\"template\":\"invoice\",\"authentication\":\"billing\"\x7d"

/-- Stored authentication with URL `https://x`. -/
def authX : Bytes := "\x7b\"URL\":\"https://x\",\"method\":\"POST\",\"headers\":\"\x7b\x7d\"\x7d"

/-- Stored authentication with URL `https://y`. -/
def authY : Bytes := "\x7b\"URL\":\"https://y\",\"method\":\"PUT\",\"headers\":\"\x7b\x7d\"\x7d"

/-- Stored authentication whose headers sub-document is not a mapping. -/
def authBadHeaders : Bytes := "\x7b\"URL\":\"https://z\",\"method\":\"POST\",\"headers\":\"- a\"\x7d"

/-- Stored template `templates/invoice`. -/
def templateInvoice : Bytes := "Hello \x7b\x7b.name\x7d\x7d"

/-- The caller's payload. -/
def payloadAnn : Bytes := "\x7b\"name\":\"Ann\"\x7d"

/-- Library behaviour on the documents of the scenario. -/
def demoLib : Lib where
  pathJoin a b := a ++ "/" ++ b
  yamlValues body :=
    if body = payloadAnn then Except.ok [("name", Any.string "Ann")]
    else Except.error "yaml: unmarshal errors"
  jsonUnmarshal data :=
    if data = bindOrders then
      Except.ok [("template", Any.string "invoice"), ("authentication", Any.string "billing")]
    else if data = authX then
      Except.ok [("URL", Any.string "https://x"), ("method", Any.string "POST"), ("headers", Any.string "\x7b\x7d")]
    else if data = authY then
      Except.ok [("URL", Any.string "https://y"), ("method", Any.string "PUT"), ("headers", Any.string "\x7b\x7d")]
    else if data = authBadHeaders then
      Except.ok [("URL", Any.string "https://z"), ("method", Any.string "POST"), ("headers", Any.string "- a")]
    else if data = "\x7b\x7d" then Except.ok []
    else Except.error "invalid character"
  yamlHeaders s := if s = "\x7b\x7d" then Except.ok [] else Except.error "yaml: unmarshal errors"

/-- A template engine that knows the scenario's template. -/
def demoEngine : Template where
  Ext values template :=
    if template = templateInvoice then
      match assertString (List.lookup "name" values) with
      | some s => Except.ok ("Hello " ++ s)
      | none => Except.error "map has no entry for key"
    else Except.error "template: unexpected token"

/-- A client whose destinations all answer. -/
def demoClient : Client where
  Send _ call := Except.ok ("reply from " ++ call.url)

/-- A client whose destination `https://x` cannot be reached. -/
def failingClient : Client where
  Send _ call :=
    if call.url = "https://x/v1/pay" then Except.error "dial tcp: connection refused"
    else Except.ok ("reply from " ++ call.url)

/-- A store given by its three partitions for the relay key `orders`. -/
def storeWith (binds templates auths : List Bytes) : CRUD where
  Get path :=
    if path = "binds/orders" then Except.ok binds
    else if path = "templates/invoice" then Except.ok templates
    else if path = "auths/billing" then Except.ok auths
    else Except.ok []

/-- A request for relay key `orders` with route suffix `v1/pay`. -/
def requestWith (crud : CRUD) (client : Client) (queryString : String) (body : Bytes) : Ctx :=
  ⟨some crud, some demoEngine, some client, "orders", "v1/pay", queryString, body⟩

/-- The scenario of the specification: one bind, one template, one authentication. -/
def scenario : Ctx :=
  requestWith (storeWith [bindOrders] [templateInvoice] [authX]) demoClient "" payloadAnn

/-- One bind, one template, two authentications. -/
def scenarioTwoAuths : Ctx :=
  requestWith (storeWith [bindOrders] [templateInvoice] [authX, authY]) demoClient "a=1" payloadAnn

/-! ## The tenant registry (`internal/server/registry/store.go`)

The registry is guarded by a reader/writer mutex, so its operations take
effect one at a time; the embedding is the sequential behaviour of the map. -/

/-- The `AppStore` of a tenant; the `*fiber.App` is a handle. -/
structure registry.AppStore where
  StoreHandler : CRUD
  App : Nat

/-- The `Registry`: the Go map `apps map[string]*AppStore` as a list with one
entry per key; a nil pointer value is `none`. -/
structure registry.Registry where
  apps : List (String × Option registry.AppStore)

/-- Method `Get`: the map index `r.apps[name]`, nil (`none`) for a missing key. -/
def registry.Registry.Get (r : registry.Registry) (name : String) : Option registry.AppStore :=
  match List.lookup name r.apps with
  | some appStore => appStore
  | none => none

/-- Method `Set`: the map assignment `r.apps[name] = appStore`. -/
def registry.Registry.Set (r : registry.Registry) (name : String)
    (appStore : Option registry.AppStore) : registry.Registry :=
  ⟨(name, appStore) :: r.apps.filter fun entry => entry.1 ≠ name⟩

/-- The registry built once by `GetRegistry`: an empty map. -/
def registry.GetRegistry : registry.Registry := ⟨[]⟩

/-- A sequence of `Set` calls, applied in order. -/
def registry.setAll (r : registry.Registry) :
    List (String × Option registry.AppStore) → registry.Registry
  | [] => r
  | call :: rest => registry.setAll (r.Set call.1 call.2) rest

/-! ## The folder-path deriver `utils.FolderFile` -/

/-- Walk the characters of a key: `folder` is the folder path completed so far,
`segment` the characters of the segment being read. -/
def utils.folderEntries (folder segment : List Char) : List Char → List (String × String)
  | [] => [(String.mk folder, String.mk segment)]
  | c :: rest =>
    if c = '/' then
      (String.mk folder, String.mk (segment ++ ['/'])) ::
        utils.folderEntries (folder ++ segment ++ ['/']) [] rest
    else utils.folderEntries folder (segment ++ [c]) rest

/-- Modelled from the spec: `utils.FolderFile` (`internal/utils/folderfile.go`) is
not among the sources, only its test is.  Section 4.1: the key is cut at every
`/`; each folder path maps to the segment that follows it, a segment that is
followed by `/` keeps that `/`, and the last segment is bare; a key without `/`
gives the single pair `"" -> key`.  The Go map is the list of its entries. -/
def utils.FolderFile (fileName : String) : List (String × String) :=
  utils.folderEntries [] [] fileName.data

/-- The chain of entries for the segments that follow the folder path `folder`:
every segment but the last keeps a trailing `/` and extends the folder path. -/
def utils.folderChain (folder : String) : List String → List (String × String)
  | [] => []
  | [s] => [(folder, s)]
  | s :: t :: rest => (folder, s ++ "/") :: utils.folderChain (folder ++ s ++ "/") (t :: rest)

/-! ## The template handlers (`internal/api/template.go`) -/

/-- A database error: a `*pgconn.PgError` with its SQLSTATE code, or another error. -/
inductive DBError where
  | pg (code : String) (message : String)
  | other (message : String)
deriving DecidableEq, Repr

/-- The text of `err.Error()`. -/
def DBError.message : DBError → String
  | DBError.pg _ message => message
  | DBError.other message => message

/-- The `*gorm.DB` returned by a statement: `Error` and `RowsAffected`. -/
structure GormResult where
  Error : Option DBError
  RowsAffected : Int
deriving DecidableEq, Repr

/-- The row type `models.Template`. -/
structure models.Template where
  ID : String
  Name : String
  Content : String
deriving DecidableEq, Repr

/-- The contents of the two tables the handlers write. -/
structure Tables where
  templates : List models.Template
  /-- Rows of the folder table: parent folder and child item. -/
  folders : List (String × String)
deriving DecidableEq, Repr

/-- A `Where` condition put on a delete statement. -/
inductive Cond where
  /-- `Where("id = ?", id)`. -/
  | idEq (id : String)
  /-- `Where("name = ?", name)`. -/
  | nameEq (name : String)
  /-- `Where("name LIKE ?", pattern)`. -/
  | nameLike (pattern : String)
deriving DecidableEq, Repr

/-- The database behind `reg.DB`: what each statement of the handlers does to
the tables and what it reports. -/
structure Gorm where
  /-- `Create(template)`. -/
  CreateTemplate : Tables → models.Template → Tables × GormResult
  /-- `Model(models.Folder{}).Clauses(clause.OnConflict{DoNothing: true}).Create(folderMap)`. -/
  CreateFolders : Tables → List (String × String) → Tables × GormResult
  /-- `query.Unscoped().Delete(&models.Template{})`. -/
  DeleteTemplates : Tables → List Cond → Tables × GormResult
  /-- `query.Delete(&models.Folder{})`. -/
  DeleteFolders : Tables → List Cond → Tables × GormResult

/-- What the handlers take from outside the request. -/
structure ApiLib where
  /-- `uuid.NewUUID()`. -/
  NewUUID : Except String String
  /-- `base64.StdEncoding.EncodeToString`. -/
  EncodeToString : Bytes → String
  /-- The text of `apimodels.ErrRequiredIDName`. -/
  ErrRequiredIDName : String
  /-- `registry.Reg().Get(name)` followed by `.DB`; `none` is the nil entry of an
  unknown tenant, on which `reg.DB` panics. -/
  Reg : String → Option Gorm

/-- The request as the template handlers read it. -/
structure ApiCtx where
  /-- `c.Locals("registry").(string)`; `none` when the type assertion fails. -/
  registry : Option String
  /-- `c.Query("id")`. -/
  id : String
  /-- `c.Query("name")`. -/
  name : String
  /-- `c.Body()`. -/
  body : Bytes

/-- How a template handler answers. -/
inductive ApiResponse where
  /-- `c.Status(status).JSON(apimodels.Error{Error: message})`. -/
  | error (status : Nat) (message : String)
  /-- `c.Status(status).JSON(apimodels.Data{Data: apimodels.ID{ID: id}})`. -/
  | data (status : Nat) (id : String)
  /-- `c.SendStatus(status)`. -/
  | status (status : Nat)
  /-- A run-time panic. -/
  | panic
deriving DecidableEq, Repr

/-- Go `strings.Trim(name, "/")`. -/
def trimSlash (name : String) : String :=
  String.mk ((name.data.dropWhile fun c => c = '/').reverse.dropWhile fun c => c = '/').reverse

/-- The index expression `name[len(name)-1] == '/'`: `none` is the index out of
range on the empty string.  The last byte is `/` exactly when the last
character is. -/
def lastIsSlash (name : String) : Option Bool :=
  match name.data.getLast? with
  | none => none
  | some c => some (c = '/')

/-- Lines 342-348 and 371-375: the condition on `name`. -/
def nameCond (name : String) (slash : Bool) : Cond :=
  if slash then Cond.nameLike (name ++ "%") else Cond.nameEq name

/-- The handler `postTemplate` (lines 159-227). -/
def api.postTemplate (lib : ApiLib) (c : ApiCtx) (db : Tables) : Tables × ApiResponse :=
  if c.name = "" then (db, ApiResponse.error 400 "name is required")
  else
    match c.registry with
    | none => (db, ApiResponse.panic)
    | some tenant =>
      match lib.NewUUID with
      | Except.error e => (db, ApiResponse.error 500 e)
      | Except.ok id =>
        match lib.Reg tenant with
        | none => (db, ApiResponse.panic)
        | some reg =>
          match reg.CreateTemplate db ⟨id, trimSlash c.name, lib.EncodeToString c.body⟩ with
          | (db1, result) =>
            match result.Error with
            | some (DBError.pg code message) =>
              if code = "23505" then (db1, ApiResponse.error 409 message)
              else (db1, ApiResponse.error 500 message)
            | some (DBError.other message) => (db1, ApiResponse.error 500 message)
            | none =>
              ((reg.CreateFolders db1 (utils.FolderFile (trimSlash c.name))).1,
                ApiResponse.data 200 id)

/-- The handler `deleteTemplate` (lines 323-381). -/
def api.deleteTemplate (lib : ApiLib) (c : ApiCtx) (db : Tables) : Tables × ApiResponse :=
  if c.id = "" ∧ c.name = "" then (db, ApiResponse.error 400 lib.ErrRequiredIDName)
  else
    match Option.bind c.registry lib.Reg with
    | none => (db, ApiResponse.panic)
    | some reg =>
      match (if c.name ≠ "" then lastIsSlash c.name else some false) with
      | none => (db, ApiResponse.panic)
      | some slash =>
        match reg.DeleteTemplates db
            ((if c.id ≠ "" then [Cond.idEq c.id] else []) ++
              (if c.name ≠ "" then [nameCond c.name slash] else [])) with
        | (db1, result) =>
          if result.RowsAffected = 0 then
            (db1, ApiResponse.error 404 "not found any releated data")
          else
            match result.Error with
            | some err => (db1, ApiResponse.error 500 err.message)
            | none =>
              match lastIsSlash c.name with
              | none => (db1, ApiResponse.panic)
              | some slash2 =>
                ((reg.DeleteFolders db1 [nameCond c.name slash2]).1, ApiResponse.status 204)

/-! ## A concrete database -/

/-- A database in which every statement succeeds: rows are appended on create
and removed on delete. -/
def workingDB : Gorm where
  CreateTemplate db template := (⟨db.templates ++ [template], db.folders⟩, ⟨none, 1⟩)
  CreateFolders db folderMap := (⟨db.templates, db.folders ++ folderMap⟩, ⟨none, folderMap.length⟩)
  DeleteTemplates db conds :=
    (⟨db.templates.filter fun t => ¬ (Cond.idEq t.ID ∈ conds ∨ Cond.nameEq t.Name ∈ conds), db.folders⟩,
      ⟨none, (db.templates.filter fun t => Cond.idEq t.ID ∈ conds ∨ Cond.nameEq t.Name ∈ conds).length⟩)
  DeleteFolders db conds :=
    (⟨db.templates, db.folders.filter fun row => ¬ (Cond.nameEq (row.1 ++ row.2) ∈ conds)⟩,
      ⟨none, (db.folders.filter fun row => Cond.nameEq (row.1 ++ row.2) ∈ conds).length⟩)

/-- A database that stores templates but whose folder insert fails. -/
def folderInsertFails : Gorm where
  CreateTemplate db template := (⟨db.templates ++ [template], db.folders⟩, ⟨none, 1⟩)
  CreateFolders db _ := (db, ⟨some (DBError.other "context canceled"), 0⟩)
  DeleteTemplates db _ := (db, ⟨none, 0⟩)
  DeleteFolders db _ := (db, ⟨none, 0⟩)

/-- A database whose delete statement fails. -/
def deleteFails : Gorm where
  CreateTemplate db _ := (db, ⟨some (DBError.other "connection refused"), 0⟩)
  CreateFolders db _ := (db, ⟨some (DBError.other "connection refused"), 0⟩)
  DeleteTemplates db _ := (db, ⟨some (DBError.other "connection refused"), 0⟩)
  DeleteFolders db _ := (db, ⟨some (DBError.other "connection refused"), 0⟩)

/-- The library behaviour used in the examples. -/
def demoApiLib (db : Gorm) : ApiLib :=
  ⟨Except.ok "0f0c1f6e", fun body => if body = "x" then "eA==" else "", "id or name is required",
    fun tenant => if tenant = "tenant1" then some db else none⟩

/-! ## The fan-out when nothing fails -/

theorem traverse_length {α β : Type} (f : α → Option β) :
    ∀ (xs : List α) (ys : List β), traverse f xs = some ys → ys.length = xs.length := by
  intro xs
  induction xs with
  | nil => intro ys h; simp [traverse] at h; simp [← h]
  | cons a rest ih =>
    intro ys h
    simp only [traverse] at h
    cases hfa : f a with
    | none => simp [hfa] at h
    | some b =>
      cases hrest : traverse f rest with
      | none => simp [hfa, hrest] at h
      | some bs =>
        simp [hfa, hrest] at h
        simp [← h, ih bs hrest]

theorem target_eq (ctx : Ctx) (url method : String) (headers : Headers) :
    url ++ "/" ++ ctx.params ++ querySuffix ctx = target ctx ⟨url, method, headers⟩ := by
  unfold querySuffix target
  by_cases h : ctx.queryString = ""
  · simp [h]
  · simp [h]

theorem authenticationDef_some (lib : Lib) (auth : GoMap) (d : AuthenticationDef)
    (h : authenticationDef lib auth = some d) :
    ∃ headersString, assertString (List.lookup "headers" auth) = some headersString ∧
      lib.yamlHeaders headersString = Except.ok d.headers ∧
      assertString (List.lookup "URL" auth) = some d.URL ∧
      assertString (List.lookup "method" auth) = some d.method := by
  unfold authenticationDef at h
  split at h
  · rename_i url method headersString h1 h2 h3
    split at h
    · rename_i headers hy
      simp at h
      subst h
      exact ⟨headersString, by simp [h3, assertString], hy, by simp [h1, assertString],
        by simp [h2, assertString]⟩
    · simp at h
  · simp at h

theorem sendAuths_all_ok (lib : Lib) (client : Client) (ctx : Ctx) (payload : Bytes)
    (hok : ∀ history call, ∃ data, client.Send history call = Except.ok data) :
    ∀ (auths : List GoMap) (defs : List AuthenticationDef) (r : Resp),
      traverse (authenticationDef lib) auths = some defs →
      ∃ r1, sendAuths lib client ctx payload auths r = (r1, none) ∧
        r1.calls = r.calls ++ defs.map (relayCall ctx payload) := by
  intro auths
  induction auths with
  | nil =>
    intro defs r h
    simp [traverse] at h
    subst h
    exact ⟨r, by simp [sendAuths], by simp⟩
  | cons auth rest ih =>
    intro defs r h
    simp only [traverse] at h
    cases hdef : authenticationDef lib auth with
    | none => simp [hdef] at h
    | some d =>
      cases hrest : traverse (authenticationDef lib) rest with
      | none => simp [hdef, hrest] at h
      | some ds =>
        simp [hdef, hrest] at h
        subst h
        obtain ⟨hs, h1, h2, h3, h4⟩ := authenticationDef_some lib auth d hdef
        obtain ⟨data, hdata⟩ := hok r.calls
          ⟨d.URL ++ "/" ++ ctx.params ++ querySuffix ctx, d.method, d.headers, payload⟩
        obtain ⟨r1, hr1, hcalls⟩ := ih ds
          ((r.logCall ⟨d.URL ++ "/" ++ ctx.params ++ querySuffix ctx, d.method, d.headers,
            payload⟩).SendStream data) hrest
        refine ⟨r1, ?_, ?_⟩
        · simp only [sendAuths, h1, h2, h3, h4, hdata]
          exact hr1
        · rw [hcalls]
          simp [Resp.SendStream, Resp.logCall, relayCall, target_eq ctx d.URL d.method d.headers]

theorem decodeAuths_of_parse (lib : Lib) :
    ∀ (raws : List Bytes) (defs : List AuthenticationDef),
      traverse (parseAuthentication lib) raws = some defs →
      ∃ auths, decodeAuths lib raws = Except.ok auths ∧
        traverse (authenticationDef lib) auths = some defs := by
  intro raws
  induction raws with
  | nil =>
    intro defs h
    simp [traverse] at h
    subst h
    exact ⟨[], by simp [decodeAuths], by simp [traverse]⟩
  | cons raw rest ih =>
    intro defs h
    simp only [traverse] at h
    cases hp : parseAuthentication lib raw with
    | none => simp [hp] at h
    | some d =>
      cases hrest : traverse (parseAuthentication lib) rest with
      | none => simp [hp, hrest] at h
      | some ds =>
        simp [hp, hrest] at h
        subst h
        obtain ⟨auths, hdec, htr⟩ := ih ds hrest
        unfold parseAuthentication at hp
        split at hp
        · rename_i auth hj
          exact ⟨auth :: auths, by simp [decodeAuths, hj, hdec], by simp [traverse, hp, htr]⟩
        · simp at hp

theorem sendTemplates_all_ok (lib : Lib) (engine : Template) (client : Client) (ctx : Ctx)
    (values : GoMap) (auths : List GoMap) (defs : List AuthenticationDef)
    (hok : ∀ history call, ∃ data, client.Send history call = Except.ok data)
    (hdefs : traverse (authenticationDef lib) auths = some defs) :
    ∀ (templates payloads : List Bytes) (r : Resp),
      traverse (renderTemplate engine values) templates = some payloads →
      ∃ r1, sendTemplates lib engine client ctx values auths templates r = (r1, none) ∧
        r1.calls = r.calls ++ payloads.flatMap fun payload => defs.map (relayCall ctx payload) := by
  intro templates
  induction templates with
  | nil =>
    intro payloads r h
    simp [traverse] at h
    subst h
    exact ⟨r, by simp [sendTemplates], by simp⟩
  | cons template rest ih =>
    intro payloads r h
    simp only [traverse] at h
    cases hrender : engine.Ext values template with
    | error e => simp [renderTemplate, hrender] at h
    | ok payload =>
      cases hrest : traverse (renderTemplate engine values) rest with
      | none => simp [renderTemplate, hrender, hrest] at h
      | some ps =>
        simp only [renderTemplate, hrender] at h
        simp [hrest] at h
        subst h
        obtain ⟨r1, hr1, hc1⟩ := sendAuths_all_ok lib client ctx payload hok auths defs r hdefs
        obtain ⟨r2, hr2, hc2⟩ := ih ps r1 hrest
        refine ⟨r2, ?_, ?_⟩
        · simp only [sendTemplates, hrender, hr1]
          exact hr2
        · rw [hc2, hc1]
          simp [List.flatMap_cons]

theorem resolveBind_some (lib : Lib) (crud : CRUD) (engine : Template) (values : GoMap)
    (data : Bytes) (b : Resolved) (h : resolveBind lib crud engine values data = some b) :
    ∃ bind templateName authenticationName,
      lib.jsonUnmarshal data = Except.ok bind ∧
      List.lookup "template" bind = some (Any.string templateName) ∧
      List.lookup "authentication" bind = some (Any.string authenticationName) ∧
      crud.Get (lib.pathJoin "templates" templateName) = Except.ok b.templates ∧
      crud.Get (lib.pathJoin "auths" authenticationName) = Except.ok b.authentications ∧
      traverse (renderTemplate engine values) b.templates = some b.payloads ∧
      traverse (parseAuthentication lib) b.authentications = some b.auths := by
  unfold resolveBind at h
  split at h
  · simp at h
  · rename_i bind hbind
    split at h
    · rename_i templateName authenticationName ht ha
      split at h
      · rename_i templates authentications hts has
        split at h
        · rename_i payloads auths hp hd
          simp at h
          subst h
          exact ⟨bind, templateName, authenticationName, hbind, ht, ha, hts, has, hp, hd⟩
        · simp at h
      · simp at h
    · simp at h

theorem sendBind_all_ok (lib : Lib) (crud : CRUD) (engine : Template) (client : Client)
    (ctx : Ctx) (values : GoMap) (data : Bytes) (b : Resolved) (r : Resp)
    (hok : ∀ history call, ∃ reply, client.Send history call = Except.ok reply)
    (h : resolveBind lib crud engine values data = some b) :
    ∃ r1, sendBind lib crud engine client ctx values data r = (r1, none) ∧
      r1.calls = r.calls ++ b.payloads.flatMap fun payload => b.auths.map (relayCall ctx payload) := by
  obtain ⟨bind, templateName, authenticationName, hbind, ht, ha, hts, has, hp, hd⟩ :=
    resolveBind_some lib crud engine values data b h
  obtain ⟨auths, hdec, hdefs⟩ := decodeAuths_of_parse lib b.authentications b.auths hd
  obtain ⟨r1, hr1, hc1⟩ := sendTemplates_all_ok lib engine client ctx values auths b.auths hok hdefs
    b.templates b.payloads
    ((r.logLookup (lib.pathJoin "templates" templateName)).logLookup
      (lib.pathJoin "auths" authenticationName)) hp
  refine ⟨r1, ?_, ?_⟩
  · simp only [sendBind, hbind, ht, ha, assertString, hts, has, hdec]
    exact hr1
  · rw [hc1]
    simp [Resp.logLookup]

theorem sendBinds_all_ok (lib : Lib) (crud : CRUD) (engine : Template) (client : Client)
    (ctx : Ctx) (values : GoMap)
    (hok : ∀ history call, ∃ reply, client.Send history call = Except.ok reply) :
    ∀ (datas : List Bytes) (binds : List Resolved) (r : Resp),
      traverse (resolveBind lib crud engine values) datas = some binds →
      ∃ r1, sendBinds lib crud engine client ctx values datas r = (r1, none) ∧
        r1.calls = r.calls ++ fanOut ctx binds := by
  intro datas
  induction datas with
  | nil =>
    intro binds r h
    simp [traverse] at h
    subst h
    exact ⟨r, by simp [sendBinds], by simp [fanOut]⟩
  | cons data rest ih =>
    intro binds r h
    simp only [traverse] at h
    cases hb : resolveBind lib crud engine values data with
    | none => simp [hb] at h
    | some b =>
      cases hrest : traverse (resolveBind lib crud engine values) rest with
      | none => simp [hb, hrest] at h
      | some bs =>
        simp [hb, hrest] at h
        subst h
        obtain ⟨r1, hr1, hc1⟩ := sendBind_all_ok lib crud engine client ctx values data b r hok hb
        obtain ⟨r2, hr2, hc2⟩ := ih bs r1 hrest
        refine ⟨r2, ?_, ?_⟩
        · simp only [sendBinds, hr1]
          exact hr2
        · rw [hc2, hc1]
          simp [fanOut, List.flatMap_cons]

theorem resolved_lengths (lib : Lib) (crud : CRUD) (engine : Template) (values : GoMap) :
    ∀ (datas : List Bytes) (binds : List Resolved),
      traverse (resolveBind lib crud engine values) datas = some binds →
      ∀ b ∈ binds, b.payloads.length = b.templates.length ∧
        b.auths.length = b.authentications.length := by
  intro datas
  induction datas with
  | nil =>
    intro binds h
    simp [traverse] at h
    subst h
    simp
  | cons data rest ih =>
    intro binds h
    simp only [traverse] at h
    cases hb : resolveBind lib crud engine values data with
    | none => simp [hb] at h
    | some b =>
      cases hrest : traverse (resolveBind lib crud engine values) rest with
      | none => simp [hb, hrest] at h
      | some bs =>
        simp [hb, hrest] at h
        subst h
        intro x hx
        rcases List.mem_cons.mp hx with hx | hx
        · subst hx
          obtain ⟨_, _, _, _, _, _, _, _, hp, hd⟩ := resolveBind_some lib crud engine values data x hb
          exact ⟨traverse_length _ _ _ hp, traverse_length _ _ _ hd⟩
        · exact ih bs hrest x hx

theorem fanOut_length (ctx : Ctx) :
    ∀ (binds : List Resolved),
      (∀ b ∈ binds, b.payloads.length = b.templates.length ∧
        b.auths.length = b.authentications.length) →
      (fanOut ctx binds).length
        = (binds.map fun b => b.templates.length * b.authentications.length).sum := by
  intro binds
  induction binds with
  | nil => intro _; simp [fanOut]
  | cons b rest ih =>
    intro h
    have hb := h b (List.mem_cons_self _ _)
    have hrest := ih (fun x hx => h x (List.mem_cons_of_mem _ hx))
    have hinner : ∀ (ps : List Bytes),
        (ps.flatMap fun payload => b.auths.map (relayCall ctx payload)).length
          = ps.length * b.auths.length := by
      intro ps
      induction ps with
      | nil => simp
      | cons p ps ihp => simp [List.flatMap_cons, ihp, Nat.succ_mul, Nat.add_comm]
    unfold fanOut at hrest ⊢
    simp only [List.flatMap_cons, List.length_append, List.map_cons, List.sum_cons, hrest, hinner]
    rw [hb.1, hb.2]

/-- C1: when the payload parses and no lookup, decode, render or transport step
fails, `Send` succeeds and the outbound calls it issued are exactly the nested
enumeration binds x templates x authentications in store order; their number is
the sum over the binds of |templates| * |authentications|. -/
theorem Send_fan_out (lib : Lib) (ctx : Ctx) (crud : CRUD) (engine : Template) (client : Client)
    (values : GoMap) (datas : List Bytes) (binds : List Resolved)
    (hstore : ctx.storeHandler = some crud) (hengine : ctx.templateEngine = some engine)
    (hclient : ctx.client = some client) (hkey : ctx.key ≠ "")
    (hvalues : lib.yamlValues ctx.body = Except.ok values)
    (hbinds : crud.Get (lib.pathJoin "binds" ctx.key) = Except.ok datas)
    (hresolved : traverse (resolveBind lib crud engine values) datas = some binds)
    (htransport : ∀ history call, ∃ reply, client.Send history call = Except.ok reply) :
    (Send lib ctx).2 = Outcome.status 200 ∧
      (Send lib ctx).1.calls = fanOut ctx binds ∧
      (Send lib ctx).1.calls.length
        = (binds.map fun b => b.templates.length * b.authentications.length).sum := by
  obtain ⟨r1, hr1, hc1⟩ := sendBinds_all_ok lib crud engine client ctx values htransport datas
    binds (Resp.empty.logLookup (lib.pathJoin "binds" ctx.key)) hresolved
  have hsend : Send lib ctx = r1.SendStatus StatusOK := by
    simp only [Send, hstore, hengine, hclient, hkey, hvalues, hbinds, if_false, hr1]
  have hcalls : (Send lib ctx).1.calls = fanOut ctx binds := by
    rw [hsend, Resp.SendStatus]
    by_cases hbody : r1.body = "" <;> simp [hbody, hc1, Resp.logLookup, Resp.empty]
  refine ⟨by rw [hsend]; simp [Resp.SendStatus, StatusOK], hcalls, ?_⟩
  rw [hcalls]
  exact fanOut_length ctx binds (resolved_lengths lib crud engine values datas binds hresolved)

/-- C1 at a concrete request: one bind, one template and two authentications
give exactly two calls, in store order. -/
theorem Send_fan_out_witness :
    (Send demoLib scenarioTwoAuths).2 = Outcome.status 200 ∧
      (Send demoLib scenarioTwoAuths).1.calls
        = fanOut scenarioTwoAuths [⟨[templateInvoice], [authX, authY], ["Hello Ann"],
            [⟨"https://x", "POST", []⟩, ⟨"https://y", "PUT", []⟩]⟩] ∧
      (Send demoLib scenarioTwoAuths).1.calls.length
        = ([(⟨[templateInvoice], [authX, authY], ["Hello Ann"],
            [⟨"https://x", "POST", []⟩, ⟨"https://y", "PUT", []⟩]⟩ : Resolved)].map
              fun b => b.templates.length * b.authentications.length).sum :=
  Send_fan_out demoLib scenarioTwoAuths (storeWith [bindOrders] [templateInvoice] [authX, authY])
    demoEngine demoClient [("name", Any.string "Ann")] [bindOrders] _
    rfl rfl rfl (by decide) rfl rfl (by decide) (fun _ call => ⟨"reply from " ++ call.url, rfl⟩)

/-! ## Empty fan-out and render failure -/

/-- C2: with a non-empty relay key and a payload that parses, an empty bind
lookup makes `Send` issue no outbound call, read the store only once (the bind
lookup itself) and complete with status 200. -/
theorem Send_zero_binds (lib : Lib) (ctx : Ctx) (crud : CRUD) (engine : Template)
    (client : Client) (values : GoMap)
    (hstore : ctx.storeHandler = some crud) (hengine : ctx.templateEngine = some engine)
    (hclient : ctx.client = some client) (hkey : ctx.key ≠ "")
    (hvalues : lib.yamlValues ctx.body = Except.ok values)
    (hbinds : crud.Get (lib.pathJoin "binds" ctx.key) = Except.ok []) :
    (Send lib ctx).2 = Outcome.status 200 ∧ (Send lib ctx).1.calls = [] ∧
      (Send lib ctx).1.lookups = [lib.pathJoin "binds" ctx.key] := by
  simp [Send, hstore, hengine, hclient, hkey, hvalues, hbinds, sendBinds, Resp.SendStatus,
    Resp.logLookup, Resp.empty, StatusOK, StatusMessage]

/-- C2 at a concrete request: relay key `orders` on a store without binds. -/
theorem Send_zero_binds_witness :
    (Send demoLib (requestWith (storeWith [] [templateInvoice] [authX]) demoClient "" payloadAnn)).2
        = Outcome.status 200 ∧
      (Send demoLib (requestWith (storeWith [] [templateInvoice] [authX]) demoClient "" payloadAnn)).1.calls
        = [] ∧
      (Send demoLib (requestWith (storeWith [] [templateInvoice] [authX]) demoClient "" payloadAnn)).1.lookups
        = ["binds/orders"] :=
  Send_zero_binds demoLib (requestWith (storeWith [] [templateInvoice] [authX]) demoClient "" payloadAnn)
    (storeWith [] [templateInvoice] [authX]) demoEngine demoClient [("name", Any.string "Ann")]
    rfl rfl rfl (by decide) rfl rfl

/-- C3: one bind, one template, and that template fails to render: `Send`
returns an error with status 500 and has issued no outbound call, however many
authentications the bind matches. -/
theorem Send_render_failure (lib : Lib) (ctx : Ctx) (crud : CRUD) (engine : Template)
    (client : Client) (values bind : GoMap) (data template : Bytes) (templateName authenticationName : String)
    (authentications : List Bytes) (e : String)
    (hstore : ctx.storeHandler = some crud) (hengine : ctx.templateEngine = some engine)
    (hclient : ctx.client = some client) (hkey : ctx.key ≠ "")
    (hvalues : lib.yamlValues ctx.body = Except.ok values)
    (hbinds : crud.Get (lib.pathJoin "binds" ctx.key) = Except.ok [data])
    (hbind : lib.jsonUnmarshal data = Except.ok bind)
    (htemplate : List.lookup "template" bind = some (Any.string templateName))
    (hauthentication : List.lookup "authentication" bind = some (Any.string authenticationName))
    (htemplates : crud.Get (lib.pathJoin "templates" templateName) = Except.ok [template])
    (hauths : crud.Get (lib.pathJoin "auths" authenticationName) = Except.ok authentications)
    (hrender : engine.Ext values template = Except.error e) :
    (∃ message, (Send lib ctx).2 = Outcome.error 500 message) ∧ (Send lib ctx).1.calls = [] := by
  cases hdec : decodeAuths lib authentications with
  | error e1 =>
    simp [Send, hstore, hengine, hclient, hkey, hvalues, hbinds, sendBinds, sendBind, hbind,
      htemplate, hauthentication, assertString, htemplates, hauths, hdec, Resp.logLookup,
      Resp.empty, StatusInternalServerError]
  | ok auths =>
    simp [Send, hstore, hengine, hclient, hkey, hvalues, hbinds, sendBinds, sendBind, hbind,
      htemplate, hauthentication, assertString, htemplates, hauths, hdec, sendTemplates, hrender,
      Resp.logLookup, Resp.empty, StatusInternalServerError]

/-- C3 at a concrete request: the only template is not valid template text and
two authentications match. -/
theorem Send_render_failure_witness :
    (∃ message, (Send demoLib (requestWith (storeWith [bindOrders] ["\x7b\x7bif"] [authX, authY])
        demoClient "" payloadAnn)).2 = Outcome.error 500 message) ∧
      (Send demoLib (requestWith (storeWith [bindOrders] ["\x7b\x7bif"] [authX, authY])
        demoClient "" payloadAnn)).1.calls = [] :=
  Send_render_failure demoLib
    (requestWith (storeWith [bindOrders] ["\x7b\x7bif"] [authX, authY]) demoClient "" payloadAnn)
    (storeWith [bindOrders] ["\x7b\x7bif"] [authX, authY]) demoEngine demoClient
    [("name", Any.string "Ann")]
    [("template", Any.string "invoice"), ("authentication", Any.string "billing")]
    bindOrders "\x7b\x7bif" "invoice" "billing" [authX, authY] "template: unexpected token"
    rfl rfl rfl (by decide) rfl rfl rfl rfl rfl rfl rfl rfl

/-! ## Transport failures -/

theorem split_last {α : Type} (pre post pre1 : List α) (c c1 : α)
    (h : pre ++ c :: post = pre1 ++ [c1]) :
    (post = [] ∧ pre = pre1 ∧ c = c1) ∨ ∃ mid, pre1 = pre ++ c :: mid := by
  rcases List.eq_nil_or_concat post with hp | ⟨mid, b, hp⟩
  · subst hp
    have := List.append_inj' h (by simp)
    simp at this
    exact Or.inl ⟨rfl, this.1, this.2⟩
  · subst hp
    right
    refine ⟨mid, ?_⟩
    have h2 : (pre ++ c :: mid) ++ [b] = pre1 ++ [c1] := by
      simpa [List.concat_eq_append] using h
    exact ((List.append_inj' h2 (by simp)).1).symm

theorem AllOk_nil (client : Client) : AllOk client [] := by
  intro pre c post h
  simp at h

theorem AllOk_snoc (client : Client) (calls : List Call) (c : Call) (data : Bytes)
    (hall : AllOk client calls) (hc : client.Send calls c = Except.ok data) :
    AllOk client (calls ++ [c]) := by
  intro pre x post h
  rcases split_last pre post calls x c h.symm with ⟨_, h2, h3⟩ | ⟨mid, hmid⟩
  · subst h2 h3
    exact ⟨data, hc⟩
  · exact hall pre x mid hmid

theorem TransportInv_none (client : Client) (r : Resp) (h : TransportInv client (r, none)) :
    AllOk client r.calls := by
  rcases h with h | ⟨_, _, _, _, _, _, h⟩
  · exact h
  · simp at h

theorem sendAuths_inv (lib : Lib) (client : Client) (ctx : Ctx) (payload : Bytes) :
    ∀ (auths : List GoMap) (r : Resp), AllOk client r.calls →
      TransportInv client (sendAuths lib client ctx payload auths r) := by
  intro auths
  induction auths with
  | nil => intro r h; exact Or.inl (by simpa [sendAuths] using h)
  | cons auth rest ih =>
    intro r h
    unfold sendAuths
    split
    · exact Or.inl h
    · split
      · exact Or.inl h
      · split
        · exact Or.inl h
        · split
          · exact Or.inl h
          · split
            · rename_i e he
              exact Or.inr ⟨r.calls, _, e, by simp [Resp.logCall], h, he, rfl⟩
            · rename_i data hd
              apply ih
              simpa [Resp.SendStream, Resp.logCall] using AllOk_snoc client r.calls _ data h hd

theorem sendTemplates_inv (lib : Lib) (engine : Template) (client : Client) (ctx : Ctx)
    (values : GoMap) (auths : List GoMap) :
    ∀ (templates : List Bytes) (r : Resp), AllOk client r.calls →
      TransportInv client (sendTemplates lib engine client ctx values auths templates r) := by
  intro templates
  induction templates with
  | nil => intro r h; exact Or.inl (by simpa [sendTemplates] using h)
  | cons template rest ih =>
    intro r h
    unfold sendTemplates
    split
    · exact Or.inl h
    · rename_i payload _
      have hinv := sendAuths_inv lib client ctx payload auths r h
      split
      · rename_i r1 o heq
        rw [heq] at hinv
        exact hinv
      · rename_i r1 heq
        rw [heq] at hinv
        exact ih r1 (TransportInv_none client r1 hinv)

theorem sendBind_inv (lib : Lib) (crud : CRUD) (engine : Template) (client : Client) (ctx : Ctx)
    (values : GoMap) (data : Bytes) (r : Resp) (h : AllOk client r.calls) :
    TransportInv client (sendBind lib crud engine client ctx values data r) := by
  unfold sendBind
  split
  · exact Or.inl h
  · split
    · exact Or.inl h
    · split
      · exact Or.inl h
      · split
        · exact Or.inl h
        · split
          · exact Or.inl h
          · split
            · exact Or.inl h
            · exact sendTemplates_inv lib engine client ctx values _ _ _ h

theorem sendBinds_inv (lib : Lib) (crud : CRUD) (engine : Template) (client : Client) (ctx : Ctx)
    (values : GoMap) :
    ∀ (datas : List Bytes) (r : Resp), AllOk client r.calls →
      TransportInv client (sendBinds lib crud engine client ctx values datas r) := by
  intro datas
  induction datas with
  | nil => intro r h; exact Or.inl (by simpa [sendBinds] using h)
  | cons data rest ih =>
    intro r h
    have hinv := sendBind_inv lib crud engine client ctx values data r h
    unfold sendBinds
    split
    · rename_i r1 o heq
      rw [heq] at hinv
      exact hinv
    · rename_i r1 heq
      rw [heq] at hinv
      exact ih r1 (TransportInv_none client r1 hinv)

/-- C4: if an outbound call issued by `Send` fails with a transport error, it is
the last call `Send` issues and `Send` returns that error with status 500. -/
theorem Send_transport_abort (lib : Lib) (ctx : Ctx) (client : Client) (pre post : List Call)
    (c : Call) (e : String) (hclient : ctx.client = some client)
    (hcalls : (Send lib ctx).1.calls = pre ++ c :: post)
    (hfail : client.Send pre c = Except.error e) :
    post = [] ∧ (Send lib ctx).2 = Outcome.error 500 e := by
  unfold Send at hcalls ⊢
  split at hcalls
  · simp [Resp.empty] at hcalls
  · rename_i crud _
    split at hcalls
    · simp [Resp.empty] at hcalls
    · split at hcalls
      · simp [Resp.empty] at hcalls
      · rename_i values _
        split at hcalls
        · simp [Resp.empty, Resp.logLookup] at hcalls
        · rename_i datas _
          split at hcalls
          · simp [Resp.empty, Resp.logLookup] at hcalls
          · rename_i engine _
            split at hcalls
            · simp [Resp.empty, Resp.logLookup] at hcalls
            · rename_i client1 hc1
              have hcc : client1 = client := by
                rw [hclient] at hc1
                exact (Option.some.inj hc1).symm
              subst hcc
              have hinv := sendBinds_inv lib crud engine client1 ctx values datas
                (Resp.empty.logLookup (lib.pathJoin "binds" ctx.key))
                (by simpa [Resp.empty, Resp.logLookup] using AllOk_nil client1)
              split at hcalls
              · rename_i r o heq
                rw [heq] at hinv
                simp only at hcalls
                rcases hinv with hall | ⟨pre1, c1, e1, hlast, hall, herr, ho⟩
                · obtain ⟨data, hd⟩ := hall pre c post hcalls
                  rw [hd] at hfail
                  cases hfail
                · simp only at hlast ho
                  rw [hlast] at hcalls
                  rcases split_last pre post pre1 c c1 hcalls.symm with ⟨h1, h2, h3⟩ | ⟨mid, hmid⟩
                  · subst h1 h2 h3
                    rw [hfail] at herr
                    cases herr
                    have ho2 := Option.some.inj ho
                    subst ho2
                    simp [*, StatusInternalServerError]
                  · obtain ⟨data, hd⟩ := hall pre c mid hmid
                    rw [hd] at hfail
                    cases hfail
              · rename_i r heq
                rw [heq] at hinv
                have hall := TransportInv_none client1 r hinv
                have hr : r.calls = pre ++ c :: post := by
                  simp only [Resp.SendStatus] at hcalls
                  split at hcalls <;> simpa using hcalls
                obtain ⟨data, hd⟩ := hall pre c post hr
                rw [hd] at hfail
                cases hfail

/-- C4 at a concrete request: two authentications are resolved and the call to
the first one fails; it is the only call issued. -/
theorem Send_transport_abort_witness :
    (Send demoLib (requestWith (storeWith [bindOrders] [templateInvoice] [authX, authY])
        failingClient "" payloadAnn)).1.calls
        = [] ++ (⟨"https://x/v1/pay", "POST", [], "Hello Ann"⟩ : Call) :: [] ∧
      failingClient.Send [] ⟨"https://x/v1/pay", "POST", [], "Hello Ann"⟩
        = Except.error "dial tcp: connection refused" ∧
      (([] : List Call) = [] ∧
        (Send demoLib (requestWith (storeWith [bindOrders] [templateInvoice] [authX, authY])
          failingClient "" payloadAnn)).2 = Outcome.error 500 "dial tcp: connection refused") :=
  ⟨by decide, rfl,
    Send_transport_abort demoLib
      (requestWith (storeWith [bindOrders] [templateInvoice] [authX, authY]) failingClient ""
        payloadAnn)
      failingClient [] [] ⟨"https://x/v1/pay", "POST", [], "Hello Ann"⟩
      "dial tcp: connection refused" rfl (by decide) rfl⟩

/-! ## The arguments of each call -/

theorem assertString_eq_some (x : Option Any) (s : String) (h : assertString x = some s) :
    x = some (Any.string s) := by
  unfold assertString at h
  split at h
  · simp at h
    subst h
    rfl
  · simp at h

theorem querySuffix_eq (ctx : Ctx) :
    querySuffix ctx = if ctx.queryString = "" then "" else "?" ++ ctx.queryString := by
  unfold querySuffix
  by_cases h : ctx.queryString = "" <;> simp [h]

theorem sendAuths_calls (lib : Lib) (engine : Template) (client : Client) (ctx : Ctx)
    (values : GoMap) (template payload : Bytes)
    (hrender : engine.Ext values template = Except.ok payload) (c : Call) :
    ∀ (auths : List GoMap) (r : Resp),
      c ∈ (sendAuths lib client ctx payload auths r).1.calls →
      c ∈ r.calls ∨ ∃ auth ∈ auths, IsCallFor lib engine ctx values template auth c := by
  intro auths
  induction auths with
  | nil => intro r h; exact Or.inl (by simpa [sendAuths] using h)
  | cons auth rest ih =>
    intro r h
    unfold sendAuths at h
    split at h
    · exact Or.inl h
    · rename_i headersString hhs
      split at h
      · exact Or.inl h
      · rename_i headers hheaders
        split at h
        · exact Or.inl h
        · rename_i url hurl
          split at h
          · exact Or.inl h
          · rename_i method hmethod
            have hnew : ∀ x : Call,
                x = ⟨url ++ "/" ++ ctx.params ++ querySuffix ctx, method, headers, payload⟩ →
                IsCallFor lib engine ctx values template auth x := by
              intro x hx
              subst hx
              exact ⟨url, method, headersString, headers, assertString_eq_some _ _ hurl,
                assertString_eq_some _ _ hmethod, assertString_eq_some _ _ hhs, hheaders,
                hrender, by simp [querySuffix_eq], rfl, rfl⟩
            split at h
            · simp only [Resp.logCall, List.mem_append, List.mem_singleton] at h
              rcases h with h | h
              · exact Or.inl h
              · exact Or.inr ⟨auth, List.mem_cons_self _ _, hnew c h⟩
            · rcases ih _ h with h | ⟨a, ha, hc⟩
              · simp only [Resp.SendStream, Resp.logCall, List.mem_append,
                  List.mem_singleton] at h
                rcases h with h | h
                · exact Or.inl h
                · exact Or.inr ⟨auth, List.mem_cons_self _ _, hnew c h⟩
              · exact Or.inr ⟨a, List.mem_cons_of_mem _ ha, hc⟩

theorem sendTemplates_calls (lib : Lib) (engine : Template) (client : Client) (ctx : Ctx)
    (values : GoMap) (auths : List GoMap) (c : Call) :
    ∀ (templates : List Bytes) (r : Resp),
      c ∈ (sendTemplates lib engine client ctx values auths templates r).1.calls →
      c ∈ r.calls ∨ ∃ template ∈ templates, ∃ auth ∈ auths,
        IsCallFor lib engine ctx values template auth c := by
  intro templates
  induction templates with
  | nil => intro r h; exact Or.inl (by simpa [sendTemplates] using h)
  | cons template rest ih =>
    intro r h
    unfold sendTemplates at h
    split at h
    · exact Or.inl h
    · rename_i payload hrender
      have hauths := sendAuths_calls lib engine client ctx values template payload hrender c auths r
      split at h
      · rename_i r1 o heq
        rw [heq] at hauths
        rcases hauths h with h | ⟨a, ha, hc⟩
        · exact Or.inl h
        · exact Or.inr ⟨template, List.mem_cons_self _ _, a, ha, hc⟩
      · rename_i r1 heq
        rw [heq] at hauths
        rcases ih r1 h with h | ⟨t, ht, a, ha, hc⟩
        · rcases hauths h with h | ⟨a, ha, hc⟩
          · exact Or.inl h
          · exact Or.inr ⟨template, List.mem_cons_self _ _, a, ha, hc⟩
        · exact Or.inr ⟨t, List.mem_cons_of_mem _ ht, a, ha, hc⟩

theorem sendBind_calls (lib : Lib) (crud : CRUD) (engine : Template) (client : Client) (ctx : Ctx)
    (values : GoMap) (data : Bytes) (r : Resp) (c : Call)
    (h : c ∈ (sendBind lib crud engine client ctx values data r).1.calls) :
    c ∈ r.calls ∨ ∃ template auth, IsPairOf lib crud data template auth ∧
      IsCallFor lib engine ctx values template auth c := by
  unfold sendBind at h
  split at h
  · exact Or.inl h
  · rename_i bind hbind
    split at h
    · exact Or.inl h
    · rename_i templateName ht
      split at h
      · exact Or.inl h
      · rename_i templates hts
        split at h
        · exact Or.inl h
        · rename_i authenticationName ha
          split at h
          · exact Or.inl h
          · rename_i raws hraws
            split at h
            · exact Or.inl h
            · rename_i auths hdec
              rcases sendTemplates_calls lib engine client ctx values auths c templates _ h with
                h | ⟨t, htm, a, ham, hc⟩
              · exact Or.inl h
              · exact Or.inr ⟨t, a, ⟨bind, templateName, authenticationName, templates, raws,
                  auths, hbind, assertString_eq_some _ _ ht, assertString_eq_some _ _ ha, hts,
                  hraws, hdec, htm, ham⟩, hc⟩

theorem sendBinds_calls (lib : Lib) (crud : CRUD) (engine : Template) (client : Client) (ctx : Ctx)
    (values : GoMap) (c : Call) :
    ∀ (datas : List Bytes) (r : Resp),
      c ∈ (sendBinds lib crud engine client ctx values datas r).1.calls →
      c ∈ r.calls ∨ ∃ data ∈ datas, ∃ template auth, IsPairOf lib crud data template auth ∧
        IsCallFor lib engine ctx values template auth c := by
  intro datas
  induction datas with
  | nil => intro r h; exact Or.inl (by simpa [sendBinds] using h)
  | cons data rest ih =>
    intro r h
    have hbind := sendBind_calls lib crud engine client ctx values data r c
    unfold sendBinds at h
    split at h
    · rename_i r1 o heq
      rw [heq] at hbind
      rcases hbind h with h | ⟨t, a, hp, hc⟩
      · exact Or.inl h
      · exact Or.inr ⟨data, List.mem_cons_self _ _, t, a, hp, hc⟩
    · rename_i r1 heq
      rw [heq] at hbind
      rcases ih r1 h with h | ⟨d, hd, t, a, hp, hc⟩
      · rcases hbind h with h | ⟨t, a, hp, hc⟩
        · exact Or.inl h
        · exact Or.inr ⟨data, List.mem_cons_self _ _, t, a, hp, hc⟩
      · exact Or.inr ⟨d, List.mem_cons_of_mem _ hd, t, a, hp, hc⟩

/-- C5: every outbound call that `Send` issues is the call for a template and
an authentication of one of the stored binds of the relay key, and its
arguments are: target = authentication URL ++ "/" ++ route suffix ++ ("?" ++
query string when non-empty), the authentication's method, the mapping parsed
from the authentication's headers sub-document, and as body the template
rendered against the parsed payload. -/
theorem Send_call_arguments (lib : Lib) (ctx : Ctx) (c : Call)
    (hmem : c ∈ (Send lib ctx).1.calls) :
    ∃ crud engine values datas data template auth,
      ctx.storeHandler = some crud ∧ ctx.templateEngine = some engine ∧
      lib.yamlValues ctx.body = Except.ok values ∧
      crud.Get (lib.pathJoin "binds" ctx.key) = Except.ok datas ∧ data ∈ datas ∧
      IsPairOf lib crud data template auth ∧
      IsCallFor lib engine ctx values template auth c := by
  unfold Send at hmem
  split at hmem
  · simp [Resp.empty] at hmem
  · rename_i crud hcrud
    split at hmem
    · simp [Resp.empty] at hmem
    · split at hmem
      · simp [Resp.empty] at hmem
      · rename_i values hvalues
        split at hmem
        · simp [Resp.empty, Resp.logLookup] at hmem
        · rename_i datas hdatas
          split at hmem
          · simp [Resp.empty, Resp.logLookup] at hmem
          · rename_i engine hengine
            split at hmem
            · simp [Resp.empty, Resp.logLookup] at hmem
            · rename_i client _
              have hloop := sendBinds_calls lib crud engine client ctx values c datas
                (Resp.empty.logLookup (lib.pathJoin "binds" ctx.key))
              have hfin : ∀ h : c ∈ (sendBinds lib crud engine client ctx values datas
                  (Resp.empty.logLookup (lib.pathJoin "binds" ctx.key))).1.calls,
                  ∃ crud engine values datas data template auth,
                    ctx.storeHandler = some crud ∧ ctx.templateEngine = some engine ∧
                    lib.yamlValues ctx.body = Except.ok values ∧
                    crud.Get (lib.pathJoin "binds" ctx.key) = Except.ok datas ∧ data ∈ datas ∧
                    IsPairOf lib crud data template auth ∧
                    IsCallFor lib engine ctx values template auth c := by
                intro h
                rcases hloop h with h | ⟨d, hd, t, a, hp, hc⟩
                · simp [Resp.empty, Resp.logLookup] at h
                · exact ⟨crud, engine, values, datas, d, t, a, hcrud, hengine, hvalues, hdatas,
                    hd, hp, hc⟩
              split at hmem
              · rename_i r o heq
                rw [heq] at hfin
                exact hfin hmem
              · rename_i r heq
                rw [heq] at hfin
                apply hfin
                simp only [Resp.SendStatus] at hmem
                split at hmem <;> simpa using hmem

/-- C5 at the scenario of the specification: template `Hello {{.name}}`,
payload `{"name":"Ann"}`, authentication URL `https://x` with method POST; the
call is a POST to `https://x/v1/pay` with body `Hello Ann`. -/
theorem Send_call_arguments_witness :
    (Send demoLib scenario).1.calls = [⟨"https://x/v1/pay", "POST", [], "Hello Ann"⟩] ∧
      ∃ crud engine values datas data template auth,
        scenario.storeHandler = some crud ∧ scenario.templateEngine = some engine ∧
        demoLib.yamlValues scenario.body = Except.ok values ∧
        crud.Get (demoLib.pathJoin "binds" scenario.key) = Except.ok datas ∧ data ∈ datas ∧
        IsPairOf demoLib crud data template auth ∧
        IsCallFor demoLib engine scenario values template auth
          ⟨"https://x/v1/pay", "POST", [], "Hello Ann"⟩ :=
  ⟨by decide, Send_call_arguments demoLib scenario ⟨"https://x/v1/pay", "POST", [], "Hello Ann"⟩
    (by decide)⟩

/-! ## Unparsable bodies, empty branches, type assertions, the response body -/

/-- C6, as the code stands: a body that does not parse is answered with status
500, not 400 (here on a request with relay key `orders`). -/
theorem Send_unparsable_body_is_500 :
    demoLib.yamlValues "name: [" = Except.error "yaml: unmarshal errors" ∧
      (Send demoLib (requestWith (storeWith [bindOrders] [templateInvoice] [authX]) demoClient ""
        "name: [")).2 = Outcome.error 500 "yaml: unmarshal errors" ∧
      ¬ ∃ message, (Send demoLib (requestWith (storeWith [bindOrders] [templateInvoice] [authX])
        demoClient "" "name: [")).2 = Outcome.error 400 message := by
  refine ⟨rfl, rfl, ?_⟩
  rintro ⟨message, h⟩
  have h500 : (Send demoLib (requestWith (storeWith [bindOrders] [templateInvoice] [authX])
      demoClient "" "name: [")).2 = Outcome.error 500 "yaml: unmarshal errors" := rfl
  rw [h500] at h
  injection h with hcode _
  exact absurd hcode (by decide)

/-- C6 amended: when the body cannot be parsed into a value mapping, `Send`
reads nothing from the store and issues no outbound call; with a non-empty
relay key it fails with status 500 and the parser's message (with an empty relay
key the earlier key check has already answered 400). -/
theorem Send_unparsable_body (lib : Lib) (ctx : Ctx) (crud : CRUD) (e : String)
    (hstore : ctx.storeHandler = some crud)
    (hvalues : lib.yamlValues ctx.body = Except.error e) :
    (Send lib ctx).1.calls = [] ∧ (Send lib ctx).1.lookups = [] ∧
      (Send lib ctx).2
        = if ctx.key = "" then Outcome.error 400 "bind key not found" else Outcome.error 500 e := by
  by_cases hkey : ctx.key = ""
  · simp [Send, hstore, hkey, Resp.empty, StatusBadRequest]
  · simp [Send, hstore, hkey, hvalues, Resp.empty, StatusInternalServerError]

/-- C6 amended, at a concrete request with an unparsable body. -/
theorem Send_unparsable_body_witness :
    (Send demoLib (requestWith (storeWith [bindOrders] [templateInvoice] [authX]) demoClient ""
        "name: [")).1.calls = [] ∧
      (Send demoLib (requestWith (storeWith [bindOrders] [templateInvoice] [authX]) demoClient ""
        "name: [")).1.lookups = [] ∧
      (Send demoLib (requestWith (storeWith [bindOrders] [templateInvoice] [authX]) demoClient ""
        "name: [")).2
        = if (requestWith (storeWith [bindOrders] [templateInvoice] [authX]) demoClient ""
            "name: [").key = "" then Outcome.error 400 "bind key not found"
          else Outcome.error 500 "yaml: unmarshal errors" :=
  Send_unparsable_body demoLib
    (requestWith (storeWith [bindOrders] [templateInvoice] [authX]) demoClient "" "name: [")
    (storeWith [bindOrders] [templateInvoice] [authX]) "yaml: unmarshal errors" rfl rfl

theorem sendTemplates_no_auths (lib : Lib) (engine : Template) (client : Client) (ctx : Ctx)
    (values : GoMap) :
    ∀ (templates : List Bytes) (r : Resp),
      (∀ t ∈ templates, ∃ payload, engine.Ext values t = Except.ok payload) →
      sendTemplates lib engine client ctx values [] templates r = (r, none) := by
  intro templates
  induction templates with
  | nil => intro r _; simp [sendTemplates]
  | cons t rest ih =>
    intro r h
    obtain ⟨payload, hp⟩ := h t (List.mem_cons_self _ _)
    simp only [sendTemplates, hp, sendAuths]
    exact ih r (fun x hx => h x (List.mem_cons_of_mem _ hx))

/-- C7, as the code stands: a single bind whose authentication prefix matches
nothing (both lookups succeed) still makes the request fail with status 500
when its template does not render. -/
theorem Send_empty_branch_can_fail :
    (storeWith [bindOrders] ["\x7b\x7bif"] []).Get "templates/invoice" = Except.ok ["\x7b\x7bif"] ∧
      (storeWith [bindOrders] ["\x7b\x7bif"] []).Get "auths/billing" = Except.ok [] ∧
      Send demoLib (requestWith (storeWith [bindOrders] ["\x7b\x7bif"] []) demoClient "" payloadAnn)
        = (⟨["binds/orders", "templates/invoice", "auths/billing"], [], [], ""⟩,
            Outcome.error 500 "template: unexpected token") :=
  ⟨rfl, rfl, rfl⟩

theorem sendTemplates_no_auths_resp (lib : Lib) (engine : Template) (client : Client)
    (ctx : Ctx) (values : GoMap) :
    ∀ (templates : List Bytes) (r : Resp),
      (sendTemplates lib engine client ctx values [] templates r).1 = r := by
  intro templates
  induction templates with
  | nil => intro r; simp [sendTemplates]
  | cons t rest ih =>
    intro r
    cases hp : engine.Ext values t with
    | error e => simp [sendTemplates, hp]
    | ok payload =>
      simp only [sendTemplates, hp, sendAuths]
      exact ih r

/-- C7 amended: a bind whose template prefix matches no template, or whose
authentication prefix matches no authentication (both lookups returning without
storage error), never adds an outbound call, a reply or a body; it does not make
the request fail provided its authentications all decode (no template matches)
or its templates all render (no authentication matches): its iteration then
ends without a return.  A request whose only bind is such a bind issues no
outbound call, and under the same proviso completes with status 200. -/
theorem sendBind_empty_branch (lib : Lib) (crud : CRUD) (engine : Template) (client : Client)
    (ctx : Ctx) (values bind : GoMap) (data : Bytes) (templateName authenticationName : String)
    (templates raws : List Bytes)
    (hbind : lib.jsonUnmarshal data = Except.ok bind)
    (htemplate : List.lookup "template" bind = some (Any.string templateName))
    (hauthentication : List.lookup "authentication" bind = some (Any.string authenticationName))
    (htemplates : crud.Get (lib.pathJoin "templates" templateName) = Except.ok templates)
    (hraws : crud.Get (lib.pathJoin "auths" authenticationName) = Except.ok raws)
    (hempty : templates = [] ∨ raws = []) :
    (∀ r : Resp,
        (sendBind lib crud engine client ctx values data r).1.calls = r.calls ∧
        (sendBind lib crud engine client ctx values data r).1.replies = r.replies ∧
        (sendBind lib crud engine client ctx values data r).1.body = r.body) ∧
      (((templates = [] ∧ ∃ auths, decodeAuths lib raws = Except.ok auths) ∨
          (raws = [] ∧ ∀ t ∈ templates, ∃ payload, engine.Ext values t = Except.ok payload)) →
        ∀ r : Resp, sendBind lib crud engine client ctx values data r
          = ((r.logLookup (lib.pathJoin "templates" templateName)).logLookup
              (lib.pathJoin "auths" authenticationName), none)) ∧
      (ctx.storeHandler = some crud → ctx.templateEngine = some engine →
        ctx.client = some client → ctx.key ≠ "" → lib.yamlValues ctx.body = Except.ok values →
        crud.Get (lib.pathJoin "binds" ctx.key) = Except.ok [data] →
        (Send lib ctx).1.calls = [] ∧
        (((templates = [] ∧ ∃ auths, decodeAuths lib raws = Except.ok auths) ∨
            (raws = [] ∧ ∀ t ∈ templates, ∃ payload, engine.Ext values t = Except.ok payload)) →
          (Send lib ctx).2 = Outcome.status 200)) := by
  have hresp : ∀ r : Resp,
      (sendBind lib crud engine client ctx values data r).1.calls = r.calls ∧
      (sendBind lib crud engine client ctx values data r).1.replies = r.replies ∧
      (sendBind lib crud engine client ctx values data r).1.body = r.body := by
    intro r
    rcases hempty with ht | hr
    · subst ht
      cases hdec : decodeAuths lib raws with
      | error e =>
        simp [sendBind, hbind, htemplate, hauthentication, assertString, htemplates, hraws, hdec,
          Resp.logLookup]
      | ok auths =>
        simp [sendBind, hbind, htemplate, hauthentication, assertString, htemplates, hraws, hdec,
          sendTemplates, Resp.logLookup]
    · subst hr
      simp only [sendBind, hbind, htemplate, hauthentication, assertString, htemplates, hraws,
        decodeAuths]
      rw [sendTemplates_no_auths_resp lib engine client ctx values templates _]
      simp [Resp.logLookup]
  have hloop : ((templates = [] ∧ ∃ auths, decodeAuths lib raws = Except.ok auths) ∨
      (raws = [] ∧ ∀ t ∈ templates, ∃ payload, engine.Ext values t = Except.ok payload)) →
      ∀ r : Resp, sendBind lib crud engine client ctx values data r
        = ((r.logLookup (lib.pathJoin "templates" templateName)).logLookup
            (lib.pathJoin "auths" authenticationName), none) := by
    intro hok r
    rcases hok with ⟨ht, auths, hdec⟩ | ⟨hr, hrender⟩
    · subst ht
      simp [sendBind, hbind, htemplate, hauthentication, assertString, htemplates, hraws, hdec,
        sendTemplates]
    · subst hr
      simp only [sendBind, hbind, htemplate, hauthentication, assertString, htemplates, hraws,
        decodeAuths]
      exact sendTemplates_no_auths lib engine client ctx values templates _ hrender
  refine ⟨hresp, hloop, ?_⟩
  intro hstore hengine hclient hkey hvalues hbinds
  refine ⟨?_, ?_⟩
  · have hfirst := (hresp (Resp.empty.logLookup (lib.pathJoin "binds" ctx.key))).1
    cases hres : sendBind lib crud engine client ctx values data
        (Resp.empty.logLookup (lib.pathJoin "binds" ctx.key)) with
    | mk r1 o =>
      rw [hres] at hfirst
      have hr1 : r1.calls = [] := by simpa [Resp.logLookup, Resp.empty] using hfirst
      cases o with
      | some o1 =>
        simp [Send, hstore, hengine, hclient, hkey, hvalues, hbinds, sendBinds, hres, hr1]
      | none =>
        simp only [Send, hstore, hengine, hclient, hkey, hvalues, hbinds, sendBinds, hres,
          if_false, Resp.SendStatus]
        split <;> simp [hr1]
  · intro hok
    simp [Send, hstore, hengine, hclient, hkey, hvalues, hbinds, sendBinds, hloop hok,
      Resp.SendStatus, StatusOK]

/-- C7 amended, at two concrete requests.  The only bind matches one template,
which renders, and no authentication: no call, status 200.  With a template
that does not render the request fails, and still no call is issued. -/
theorem sendBind_empty_branch_witness :
    ((∀ r : Resp, sendBind demoLib (storeWith [bindOrders] [templateInvoice] []) demoEngine
        demoClient (requestWith (storeWith [bindOrders] [templateInvoice] []) demoClient ""
          payloadAnn) [("name", Any.string "Ann")] bindOrders r
        = ((r.logLookup "templates/invoice").logLookup "auths/billing", none)) ∧
      (Send demoLib (requestWith (storeWith [bindOrders] [templateInvoice] []) demoClient ""
        payloadAnn)).2 = Outcome.status 200 ∧
      (Send demoLib (requestWith (storeWith [bindOrders] [templateInvoice] []) demoClient ""
        payloadAnn)).1.calls = []) ∧
      (Send demoLib (requestWith (storeWith [bindOrders] ["\x7b\x7bif"] []) demoClient ""
        payloadAnn)).1.calls = [] :=
  have h := sendBind_empty_branch demoLib (storeWith [bindOrders] [templateInvoice] [])
    demoEngine demoClient
    (requestWith (storeWith [bindOrders] [templateInvoice] []) demoClient "" payloadAnn)
    [("name", Any.string "Ann")]
    [("template", Any.string "invoice"), ("authentication", Any.string "billing")]
    bindOrders "invoice" "billing" [templateInvoice] [] rfl rfl rfl rfl rfl (Or.inr rfl)
  have hrenders : ([templateInvoice] = [] ∧
      ∃ auths, decodeAuths demoLib [] = Except.ok auths) ∨
      (([] : List Bytes) = [] ∧ ∀ t ∈ [templateInvoice],
        ∃ payload, demoEngine.Ext [("name", Any.string "Ann")] t = Except.ok payload) :=
    Or.inr ⟨rfl, fun t ht => by
      rw [List.mem_singleton] at ht
      subst ht
      exact ⟨"Hello Ann", rfl⟩⟩
  ⟨⟨h.2.1 hrenders, (h.2.2 rfl rfl rfl (by decide) rfl rfl).2 hrenders,
      (h.2.2 rfl rfl rfl (by decide) rfl rfl).1⟩,
    ((sendBind_empty_branch demoLib (storeWith [bindOrders] ["\x7b\x7bif"] []) demoEngine
      demoClient
      (requestWith (storeWith [bindOrders] ["\x7b\x7bif"] []) demoClient "" payloadAnn)
      [("name", Any.string "Ann")]
      [("template", Any.string "invoice"), ("authentication", Any.string "billing")]
      bindOrders "invoice" "billing" ["\x7b\x7bif"] [] rfl rfl rfl rfl rfl (Or.inr rfl)).2.2
        rfl rfl rfl (by decide) rfl rfl).1⟩

/-- C8, as the code stands: a stored bind `{}` (valid JSON without a `template`
field) sends `Send` into the failing type assertion `bind["template"].(string)`;
the handler panics instead of returning success or an error. -/
theorem Send_panics_on_bind_without_template :
    demoLib.jsonUnmarshal "\x7b\x7d" = Except.ok [] ∧
      Send demoLib (requestWith (storeWith ["\x7b\x7d"] [templateInvoice] [authX]) demoClient ""
        payloadAnn) = (⟨["binds/orders"], [], [], ""⟩, Outcome.panic) :=
  ⟨rfl, rfl⟩

/-- C9, as the code stands: after two successful outbound calls the response
body is the second reply alone, not the concatenation of both replies. -/
theorem Send_body_is_last_reply :
    (Send demoLib scenarioTwoAuths).2 = Outcome.status 200 ∧
      (Send demoLib scenarioTwoAuths).1.replies
        = ["reply from https://x/v1/pay?a=1", "reply from https://y/v1/pay?a=1"] ∧
      (Send demoLib scenarioTwoAuths).1.body = "reply from https://y/v1/pay?a=1" ∧
      (Send demoLib scenarioTwoAuths).1.body
        ≠ "reply from https://x/v1/pay?a=1" ++ "reply from https://y/v1/pay?a=1" := by
  decide

/-! ## Malformed headers -/

theorem sendAuths_append (lib : Lib) (client : Client) (ctx : Ctx) (payload : Bytes) :
    ∀ (before after : List GoMap) (r r1 : Resp),
      sendAuths lib client ctx payload before r = (r1, none) →
      sendAuths lib client ctx payload (before ++ after) r
        = sendAuths lib client ctx payload after r1 := by
  intro before
  induction before with
  | nil =>
    intro after r r1 h
    simp [sendAuths] at h
    subst h
    rfl
  | cons auth rest ih =>
    intro after r r1 h
    simp only [List.cons_append]
    unfold sendAuths at h
    split at h
    · simp at h
    · rename_i hs h1
      split at h
      · simp at h
      · rename_i headers h2
        split at h
        · simp at h
        · rename_i url h3
          split at h
          · simp at h
          · rename_i method h4
            split at h
            · simp at h
            · rename_i data h5
              simp only [sendAuths, h1, h2, h3, h4, h5]
              exact ih after _ r1 h

theorem sendTemplates_append (lib : Lib) (engine : Template) (client : Client) (ctx : Ctx)
    (values : GoMap) (auths : List GoMap) :
    ∀ (before after : List Bytes) (r r1 : Resp),
      sendTemplates lib engine client ctx values auths before r = (r1, none) →
      sendTemplates lib engine client ctx values auths (before ++ after) r
        = sendTemplates lib engine client ctx values auths after r1 := by
  intro before
  induction before with
  | nil =>
    intro after r r1 h
    simp [sendTemplates] at h
    subst h
    rfl
  | cons t rest ih =>
    intro after r r1 h
    simp only [List.cons_append]
    unfold sendTemplates at h
    split at h
    · simp at h
    · rename_i payload hp
      split at h
      · simp at h
      · rename_i r2 heq
        simp only [sendTemplates, hp, heq]
        exact ih after r2 r1 h

theorem sendBinds_append (lib : Lib) (crud : CRUD) (engine : Template) (client : Client)
    (ctx : Ctx) (values : GoMap) :
    ∀ (before after : List Bytes) (r r1 : Resp),
      sendBinds lib crud engine client ctx values before r = (r1, none) →
      sendBinds lib crud engine client ctx values (before ++ after) r
        = sendBinds lib crud engine client ctx values after r1 := by
  intro before
  induction before with
  | nil =>
    intro after r r1 h
    simp [sendBinds] at h
    subst h
    rfl
  | cons d rest ih =>
    intro after r r1 h
    simp only [List.cons_append]
    unfold sendBinds at h
    split at h
    · simp at h
    · rename_i r2 heq
      simp only [sendBinds, heq]
      exact ih after r2 r1 h

/-- C10: when `Send` reaches a (template, authentication) pair whose
authentication carries a headers sub-document that does not parse as a
string-to-string mapping, it returns status 500 with the parser's message in
the state in which it reached the pair: neither the call for that pair nor any
later call is issued.  The pair is reached after the binds, templates and
authentications in front of it were processed without a return. -/
theorem Send_malformed_headers (lib : Lib) (ctx : Ctx) (crud : CRUD) (engine : Template)
    (client : Client) (values bind auth : GoMap) (data template payload : Bytes)
    (bindsBefore bindsAfter templatesBefore templatesAfter raws : List Bytes)
    (authsBefore authsAfter : List GoMap) (templateName authenticationName headersString e : String)
    (r1 r2 r3 : Resp)
    (hstore : ctx.storeHandler = some crud) (hengine : ctx.templateEngine = some engine)
    (hclient : ctx.client = some client) (hkey : ctx.key ≠ "")
    (hvalues : lib.yamlValues ctx.body = Except.ok values)
    (hbinds : crud.Get (lib.pathJoin "binds" ctx.key) = Except.ok (bindsBefore ++ data :: bindsAfter))
    (hbindsBefore : sendBinds lib crud engine client ctx values bindsBefore
      (Resp.empty.logLookup (lib.pathJoin "binds" ctx.key)) = (r1, none))
    (hbind : lib.jsonUnmarshal data = Except.ok bind)
    (htemplate : List.lookup "template" bind = some (Any.string templateName))
    (hauthentication : List.lookup "authentication" bind = some (Any.string authenticationName))
    (htemplates : crud.Get (lib.pathJoin "templates" templateName)
      = Except.ok (templatesBefore ++ template :: templatesAfter))
    (hraws : crud.Get (lib.pathJoin "auths" authenticationName) = Except.ok raws)
    (hdecode : decodeAuths lib raws = Except.ok (authsBefore ++ auth :: authsAfter))
    (htemplatesBefore : sendTemplates lib engine client ctx values
      (authsBefore ++ auth :: authsAfter) templatesBefore
      ((r1.logLookup (lib.pathJoin "templates" templateName)).logLookup
        (lib.pathJoin "auths" authenticationName)) = (r2, none))
    (hrender : engine.Ext values template = Except.ok payload)
    (hauthsBefore : sendAuths lib client ctx payload authsBefore r2 = (r3, none))
    (hheaders : List.lookup "headers" auth = some (Any.string headersString))
    (hmalformed : lib.yamlHeaders headersString = Except.error e) :
    Send lib ctx = (r3, Outcome.error 500 e) := by
  have hauths : sendAuths lib client ctx payload (authsBefore ++ auth :: authsAfter) r2
      = (r3, some (Outcome.error StatusInternalServerError e)) := by
    rw [sendAuths_append lib client ctx payload authsBefore (auth :: authsAfter) r2 r3 hauthsBefore]
    simp [sendAuths, hheaders, assertString, hmalformed]
  have htemps : sendTemplates lib engine client ctx values (authsBefore ++ auth :: authsAfter)
      (templatesBefore ++ template :: templatesAfter)
      ((r1.logLookup (lib.pathJoin "templates" templateName)).logLookup
        (lib.pathJoin "auths" authenticationName))
      = (r3, some (Outcome.error StatusInternalServerError e)) := by
    rw [sendTemplates_append lib engine client ctx values _ templatesBefore
      (template :: templatesAfter) _ r2 htemplatesBefore]
    simp [sendTemplates, hrender, hauths]
  have hone : sendBind lib crud engine client ctx values data r1
      = (r3, some (Outcome.error StatusInternalServerError e)) := by
    simp only [sendBind, hbind, htemplate, hauthentication, assertString, htemplates, hraws,
      hdecode]
    exact htemps
  have hall : sendBinds lib crud engine client ctx values (bindsBefore ++ data :: bindsAfter)
      (Resp.empty.logLookup (lib.pathJoin "binds" ctx.key))
      = (r3, some (Outcome.error StatusInternalServerError e)) := by
    rw [sendBinds_append lib crud engine client ctx values bindsBefore (data :: bindsAfter) _ r1
      hbindsBefore]
    simp [sendBinds, hone]
  simp [Send, hstore, hengine, hclient, hkey, hvalues, hbinds, hall, StatusInternalServerError]

/-- C10 at a concrete request: the second of three authentications has headers
`- a` (a YAML sequence); only the call to the first authentication is issued. -/
theorem Send_malformed_headers_witness :
    Send demoLib (requestWith (storeWith [bindOrders] [templateInvoice]
        [authY, authBadHeaders, authX]) demoClient "" payloadAnn)
      = (⟨["binds/orders", "templates/invoice", "auths/billing"],
          [⟨"https://y/v1/pay", "PUT", [], "Hello Ann"⟩], ["reply from https://y/v1/pay"],
          "reply from https://y/v1/pay"⟩, Outcome.error 500 "yaml: unmarshal errors") :=
  Send_malformed_headers demoLib
    (requestWith (storeWith [bindOrders] [templateInvoice] [authY, authBadHeaders, authX])
      demoClient "" payloadAnn)
    (storeWith [bindOrders] [templateInvoice] [authY, authBadHeaders, authX]) demoEngine
    demoClient [("name", Any.string "Ann")]
    [("template", Any.string "invoice"), ("authentication", Any.string "billing")]
    [("URL", Any.string "https://z"), ("method", Any.string "POST"), ("headers", Any.string "- a")]
    bindOrders templateInvoice "Hello Ann" [] [] [] [] [authY, authBadHeaders, authX]
    [[("URL", Any.string "https://y"), ("method", Any.string "PUT"),
      ("headers", Any.string "\x7b\x7d")]]
    [[("URL", Any.string "https://x"), ("method", Any.string "POST"),
      ("headers", Any.string "\x7b\x7d")]]
    "invoice" "billing" "- a" "yaml: unmarshal errors"
    ⟨["binds/orders"], [], [], ""⟩
    ⟨["binds/orders", "templates/invoice", "auths/billing"], [], [], ""⟩
    ⟨["binds/orders", "templates/invoice", "auths/billing"],
      [⟨"https://y/v1/pay", "PUT", [], "Hello Ann"⟩], ["reply from https://y/v1/pay"],
      "reply from https://y/v1/pay"⟩
    rfl rfl rfl (by decide) rfl rfl rfl rfl rfl rfl rfl rfl rfl rfl rfl rfl rfl rfl

/-! ## The empty relay key -/

/-- C11: with an empty relay key `Send` fails with status 400 and the message
"bind key not found"; it has read nothing from the store and issued no call,
and the answer is the same whatever the payload parser would do with the body. -/
theorem Send_empty_key (lib : Lib) (ctx : Ctx) (crud : CRUD)
    (hstore : ctx.storeHandler = some crud) (hkey : ctx.key = "") :
    (Send lib ctx).2 = Outcome.error 400 "bind key not found" ∧
      (Send lib ctx).1.lookups = [] ∧ (Send lib ctx).1.calls = [] ∧
      (Send lib ctx).1.replies = [] := by
  simp [Send, hstore, hkey, Resp.empty, StatusBadRequest]

/-- C11 at a concrete request: empty key and a body that does not parse. -/
theorem Send_empty_key_witness :
    (Send demoLib ⟨some (storeWith [bindOrders] [templateInvoice] [authX]), some demoEngine,
        some demoClient, "", "v1/pay", "", "name: ["⟩).2
        = Outcome.error 400 "bind key not found" ∧
      (Send demoLib ⟨some (storeWith [bindOrders] [templateInvoice] [authX]), some demoEngine,
        some demoClient, "", "v1/pay", "", "name: ["⟩).1.lookups = [] ∧
      (Send demoLib ⟨some (storeWith [bindOrders] [templateInvoice] [authX]), some demoEngine,
        some demoClient, "", "v1/pay", "", "name: ["⟩).1.calls = [] ∧
      (Send demoLib ⟨some (storeWith [bindOrders] [templateInvoice] [authX]), some demoEngine,
        some demoClient, "", "v1/pay", "", "name: ["⟩).1.replies = [] :=
  Send_empty_key demoLib ⟨some (storeWith [bindOrders] [templateInvoice] [authX]),
    some demoEngine, some demoClient, "", "v1/pay", "", "name: ["⟩
    (storeWith [bindOrders] [templateInvoice] [authX]) rfl rfl

/-! ## The folder-path deriver -/

theorem folderEntries_segment :
    ∀ (s folder segment : List Char), '/' ∉ s →
      utils.folderEntries folder segment s = [(String.mk folder, String.mk (segment ++ s))] := by
  intro s
  induction s with
  | nil => intro folder segment _; simp [utils.folderEntries]
  | cons c rest ih =>
    intro folder segment h
    have hc : c ≠ '/' := fun hc => h (by simp [hc])
    have hrest : '/' ∉ rest := fun hr => h (List.mem_cons_of_mem _ hr)
    simp [utils.folderEntries, hc, ih folder (segment ++ [c]) hrest]

theorem folderEntries_slash :
    ∀ (s folder segment rest : List Char), '/' ∉ s →
      utils.folderEntries folder segment (s ++ '/' :: rest)
        = (String.mk folder, String.mk (segment ++ s ++ ['/'])) ::
            utils.folderEntries (folder ++ (segment ++ s) ++ ['/']) [] rest := by
  intro s
  induction s with
  | nil => intro folder segment rest _; simp [utils.folderEntries]
  | cons c tail ih =>
    intro folder segment rest h
    have hc : c ≠ '/' := fun hc => h (by simp [hc])
    have htail : '/' ∉ tail := fun hr => h (List.mem_cons_of_mem _ hr)
    simp [utils.folderEntries, hc, ih folder (segment ++ [c]) rest htail]

theorem intercalate_go_data (sep : String) :
    ∀ (rest : List String) (acc : String),
      (String.intercalate.go acc sep rest).data
        = acc.data ++ rest.flatMap fun x => sep.data ++ x.data := by
  intro rest
  induction rest with
  | nil => intro acc; simp [String.intercalate.go]
  | cons x xs ih =>
    intro acc
    simp [String.intercalate.go, ih, String.data_append, List.flatMap_cons]

theorem intercalate_data (s : String) (rest : List String) :
    (String.intercalate "/" (s :: rest)).data
      = s.data ++ rest.flatMap fun x => '/' :: x.data := by
  simp only [String.intercalate, intercalate_go_data]
  rfl

theorem folderEntries_chain :
    ∀ (rest : List String) (s folder : String), (∀ x ∈ s :: rest, '/' ∉ x.data) →
      utils.folderEntries folder.data [] (s.data ++ rest.flatMap fun x => '/' :: x.data)
        = utils.folderChain folder (s :: rest) := by
  intro rest
  induction rest with
  | nil =>
    intro s folder h
    simp [utils.folderChain, folderEntries_segment s.data folder.data [] (h s (by simp))]
  | cons t rest ih =>
    intro s folder h
    have hs : '/' ∉ s.data := h s (by simp)
    have hrest : ∀ x ∈ t :: rest, '/' ∉ x.data := fun x hx => h x (List.mem_cons_of_mem _ hx)
    have hstep := ih t (folder ++ s ++ "/") hrest
    simp only [List.flatMap_cons, List.cons_append, utils.folderChain]
    rw [folderEntries_slash s.data folder.data [] _ hs]
    simp only [String.data_append] at hstep
    simp only [List.nil_append]
    rw [← hstep]
    congr 1

theorem FolderFile_eq_chain (segments : List String) (hne : segments ≠ [])
    (hseg : ∀ s ∈ segments, '/' ∉ s.data) :
    utils.FolderFile (String.intercalate "/" segments) = utils.folderChain "" segments := by
  cases segments with
  | nil => exact absurd rfl hne
  | cons s rest =>
    unfold utils.FolderFile
    rw [intercalate_data]
    exact folderEntries_chain rest s "" hseg

theorem join_cons (x : String) (xs : List String) :
    String.join (x :: xs) = x ++ String.join xs := by
  apply String.ext
  simp [String.data_join, String.data_append]

theorem folderChain_length :
    ∀ (segments : List String) (folder : String),
      (utils.folderChain folder segments).length = segments.length := by
  intro segments
  induction segments with
  | nil => intro folder; simp [utils.folderChain]
  | cons s rest ih =>
    intro folder
    cases rest with
    | nil => simp [utils.folderChain]
    | cons t rest1 => simp [utils.folderChain, ih (folder ++ s ++ "/")]

theorem folderChain_entry :
    ∀ (segments : List String) (folder : String) (i : Nat), i < segments.length →
      (utils.folderChain folder segments)[i]?
        = some (folder ++ String.join ((segments.take i).map fun s => s ++ "/"),
            if i + 1 < segments.length then segments.getD i "" ++ "/" else segments.getD i "") := by
  intro segments
  induction segments with
  | nil => intro folder i hi; simp at hi
  | cons s rest ih =>
    intro folder i hi
    cases rest with
    | nil =>
      have hi0 : i = 0 := by simpa using hi
      subst hi0
      simp [utils.folderChain, String.join]
    | cons t rest1 =>
      cases i with
      | zero => simp [utils.folderChain, String.join]
      | succ j =>
        have hj : j < (t :: rest1).length := by simpa using hi
        have hstep := ih (folder ++ s ++ "/") j hj
        simp only [utils.folderChain, List.getElem?_cons_succ, List.take_succ_cons,
          List.map_cons, join_cons]
        rw [hstep]
        simp [String.append_assoc]

theorem folderChain_keys_length :
    ∀ (segments : List String) (folder : String),
      ∀ k ∈ (utils.folderChain folder segments).map Prod.fst, folder.length ≤ k.length := by
  intro segments
  induction segments with
  | nil => intro folder k hk; simp [utils.folderChain] at hk
  | cons s rest ih =>
    intro folder k hk
    cases rest with
    | nil =>
      simp [utils.folderChain] at hk
      simp [hk]
    | cons t rest1 =>
      simp only [utils.folderChain, List.map_cons, List.mem_cons] at hk
      rcases hk with hk | hk
      · simp [hk]
      · have := ih (folder ++ s ++ "/") k hk
        simp only [String.length_append] at this
        omega

theorem folderChain_keys_nodup :
    ∀ (segments : List String) (folder : String),
      ((utils.folderChain folder segments).map Prod.fst).Nodup := by
  intro segments
  induction segments with
  | nil => intro folder; simp [utils.folderChain]
  | cons s rest ih =>
    intro folder
    cases rest with
    | nil => simp [utils.folderChain]
    | cons t rest1 =>
      simp only [utils.folderChain, List.map_cons, List.nodup_cons]
      refine ⟨?_, ih (folder ++ s ++ "/")⟩
      intro hmem
      have := folderChain_keys_length (t :: rest1) (folder ++ s ++ "/") folder hmem
      simp only [String.length_append] at this
      have h1 : ("/" : String).length = 1 := by decide
      omega

/-- C12: for a key made of n >= 1 segments without "/", joined by "/",
`FolderFile` returns exactly n entries with pairwise different keys, forming a
chain: entry i maps the folder path s1/.../si/ (the empty path for i = 0) to
segment i+1, with a trailing "/" for every segment but the last.  A key without
"/" gives the single entry "" -> key, and `folder1/folder2/test1234` gives the
three entries of the test. -/
theorem FolderFile_chain (segments : List String) (key : String) (hne : segments ≠ [])
    (hseg : ∀ s ∈ segments, s ≠ "" ∧ '/' ∉ s.data) (hkey : '/' ∉ key.data) :
    (utils.FolderFile (String.intercalate "/" segments)).length = segments.length ∧
      ((utils.FolderFile (String.intercalate "/" segments)).map Prod.fst).Nodup ∧
      (∀ i, i < segments.length →
        (utils.FolderFile (String.intercalate "/" segments))[i]?
          = some (String.join ((segments.take i).map fun s => s ++ "/"),
              if i + 1 < segments.length then segments.getD i "" ++ "/"
              else segments.getD i "")) ∧
      utils.FolderFile key = [("", key)] ∧
      utils.FolderFile "folder1/folder2/test1234"
        = [("", "folder1/"), ("folder1/", "folder2/"), ("folder1/folder2/", "test1234")] := by
  have hchain := FolderFile_eq_chain segments hne (fun s hs => (hseg s hs).2)
  refine ⟨?_, ?_, ?_, ?_, by decide⟩
  · rw [hchain, folderChain_length]
  · rw [hchain]
    exact folderChain_keys_nodup segments ""
  · intro i hi
    rw [hchain, folderChain_entry segments "" i hi]
    simp
  · unfold utils.FolderFile
    rw [folderEntries_segment key.data [] [] hkey]
    rfl

/-- C12 at the keys of the test: three segments, and a bare key. -/
theorem FolderFile_chain_witness :
    (utils.FolderFile (String.intercalate "/" ["folder1", "folder2", "test1234"])).length
        = ["folder1", "folder2", "test1234"].length ∧
      ((utils.FolderFile (String.intercalate "/" ["folder1", "folder2", "test1234"])).map
        Prod.fst).Nodup ∧
      (∀ i, i < ["folder1", "folder2", "test1234"].length →
        (utils.FolderFile (String.intercalate "/" ["folder1", "folder2", "test1234"]))[i]?
          = some (String.join ((["folder1", "folder2", "test1234"].take i).map fun s => s ++ "/"),
              if i + 1 < ["folder1", "folder2", "test1234"].length then
                ["folder1", "folder2", "test1234"].getD i "" ++ "/"
              else ["folder1", "folder2", "test1234"].getD i "")) ∧
      utils.FolderFile "test1234" = [("", "test1234")] ∧
      utils.FolderFile "folder1/folder2/test1234"
        = [("", "folder1/"), ("folder1/", "folder2/"), ("folder1/folder2/", "test1234")] :=
  FolderFile_chain ["folder1", "folder2", "test1234"] "test1234" (by decide) (by decide)
    (by decide)

/-! ## The tenant registry -/

theorem Registry_Get_Set_same (r : registry.Registry) (name : String)
    (appStore : Option registry.AppStore) : (r.Set name appStore).Get name = appStore := by
  simp [registry.Registry.Get, registry.Registry.Set, List.lookup]

theorem lookup_filter_ne (name other : String) (hother : other ≠ name) :
    ∀ apps : List (String × Option registry.AppStore),
      List.lookup other (apps.filter fun entry => entry.1 ≠ name) = List.lookup other apps := by
  intro apps
  induction apps with
  | nil => rfl
  | cons entry rest ih =>
    obtain ⟨k, v⟩ := entry
    by_cases hk : k = name
    · subst hk
      have hne : (other == k) = false := by simpa using hother
      simpa [List.filter, List.lookup, hne] using ih
    · by_cases hok : other = k
      · subst hok
        simp [List.filter, hk, List.lookup]
      · have hne : (other == k) = false := by simpa using hok
        simpa [List.filter, hk, List.lookup, hne] using ih

theorem Registry_Get_Set_other (r : registry.Registry) (name other : String)
    (appStore : Option registry.AppStore) (hother : other ≠ name) :
    (r.Set name appStore).Get other = r.Get other := by
  have hne : (other == name) = false := by simpa using hother
  simp only [registry.Registry.Get, registry.Registry.Set, List.lookup, hne]
  rw [lookup_filter_ne name other hother]

theorem setAll_append (calls later : List (String × Option registry.AppStore)) :
    ∀ r : registry.Registry,
      registry.setAll r (calls ++ later) = registry.setAll (registry.setAll r calls) later := by
  induction calls with
  | nil => intro r; rfl
  | cons call rest ih => intro r; simp [registry.setAll, ih]

theorem setAll_Get_untouched (name : String) :
    ∀ (calls : List (String × Option registry.AppStore)) (r : registry.Registry),
      (∀ call ∈ calls, call.1 ≠ name) → (registry.setAll r calls).Get name = r.Get name := by
  intro calls
  induction calls with
  | nil => intro r _; rfl
  | cons call rest ih =>
    intro r h
    simp only [registry.setAll]
    rw [ih (r.Set call.1 call.2) (fun c hc => h c (List.mem_cons_of_mem _ hc))]
    exact Registry_Get_Set_other r call.1 name call.2 (fun heq => h call (List.mem_cons_self _ _) heq.symm)

/-- C13: starting from the registry returned by `GetRegistry`, after any
sequence of `Set` calls `Get name` returns the entry of the most recent
`Set name`, and nil when `name` was never set; `Set name` replaces the entry of
`name` and leaves `Get` of every other name unchanged. -/
theorem Registry_Get_after_Set (before after : List (String × Option registry.AppStore))
    (name other : String) (appStore : Option registry.AppStore)
    (hafter : ∀ call ∈ after, call.1 ≠ name) (hother : other ≠ name) :
    (registry.setAll registry.GetRegistry (before ++ (name, appStore) :: after)).Get name
        = appStore ∧
      (registry.setAll registry.GetRegistry after).Get name = none ∧
      ((registry.setAll registry.GetRegistry before).Set name appStore).Get name = appStore ∧
      ((registry.setAll registry.GetRegistry before).Set name appStore).Get other
        = (registry.setAll registry.GetRegistry before).Get other := by
  refine ⟨?_, ?_, Registry_Get_Set_same _ name appStore,
    Registry_Get_Set_other _ name other appStore hother⟩
  · rw [setAll_append]
    simp only [registry.setAll]
    rw [setAll_Get_untouched name after _ hafter]
    exact Registry_Get_Set_same _ name appStore
  · rw [setAll_Get_untouched name after _ hafter]
    rfl

/-- C13 at a concrete sequence: tenant `a` is set twice, tenant `b` in between
and afterwards. -/
theorem Registry_Get_after_Set_witness :
    (registry.setAll registry.GetRegistry
        ([("a", some ⟨storeWith [] [] [], 1⟩), ("b", some ⟨storeWith [] [] [], 2⟩)] ++
          ("a", some ⟨storeWith [bindOrders] [] [], 3⟩) ::
            [("b", none)])).Get "a" = some ⟨storeWith [bindOrders] [] [], 3⟩ ∧
      (registry.setAll registry.GetRegistry [("b", none)]).Get "a" = none ∧
      ((registry.setAll registry.GetRegistry
        [("a", some ⟨storeWith [] [] [], 1⟩), ("b", some ⟨storeWith [] [] [], 2⟩)]).Set "a"
          (some ⟨storeWith [bindOrders] [] [], 3⟩)).Get "a"
        = some ⟨storeWith [bindOrders] [] [], 3⟩ ∧
      ((registry.setAll registry.GetRegistry
        [("a", some ⟨storeWith [] [] [], 1⟩), ("b", some ⟨storeWith [] [] [], 2⟩)]).Set "a"
          (some ⟨storeWith [bindOrders] [] [], 3⟩)).Get "b"
        = (registry.setAll registry.GetRegistry
            [("a", some ⟨storeWith [] [] [], 1⟩), ("b", some ⟨storeWith [] [] [], 2⟩)]).Get "b" :=
  Registry_Get_after_Set
    [("a", some ⟨storeWith [] [] [], 1⟩), ("b", some ⟨storeWith [] [] [], 2⟩)] [("b", none)]
    "a" "b" (some ⟨storeWith [bindOrders] [] [], 3⟩)
    (fun call hcall => by
      rw [List.mem_singleton] at hcall
      subst hcall
      decide)
    (by decide)

/-! ## The template handlers -/

/-- C14, as the code stands: the delete statement fails (and so affects no row)
and `deleteTemplate` answers 404, the not-found response, instead of 500: the
zero-rows check of line 353 comes before the error check of line 361. -/
theorem deleteTemplate_storage_failure_is_404 :
    (deleteFails.DeleteTemplates ⟨[], []⟩ [Cond.nameEq "folder1/test1234"]).2
        = ⟨some (DBError.other "connection refused"), 0⟩ ∧
      (api.deleteTemplate (demoApiLib deleteFails) ⟨some "tenant1", "", "folder1/test1234", ""⟩ ⟨[], []⟩).2
        = ApiResponse.error 404 "not found any releated data" := by
  decide

/-- C15, as the code stands: a delete by id alone succeeds on one row, and the
handler then evaluates `name[len(name)-1]` on the empty name (line 371) and
panics instead of answering 204; the template row is already gone. -/
theorem deleteTemplate_by_id_panics :
    (workingDB.DeleteTemplates
        ⟨[⟨"0f0c1f6e", "folder1/test1234", "eA=="⟩], [("", "folder1/"), ("folder1/", "test1234")]⟩
        [Cond.idEq "0f0c1f6e"]).2 = ⟨none, 1⟩ ∧
      api.deleteTemplate (demoApiLib workingDB) ⟨some "tenant1", "0f0c1f6e", "", ""⟩
        ⟨[⟨"0f0c1f6e", "folder1/test1234", "eA=="⟩], [("", "folder1/"), ("folder1/", "test1234")]⟩
        = (⟨[], [("", "folder1/"), ("folder1/", "test1234")]⟩, ApiResponse.panic) := by
  decide

/-- C16, as the code stands: the template insert succeeds, the folder insert
fails, and `postTemplate` still answers 200; the template row is stored and
none of its folder entries is. -/
theorem postTemplate_success_without_folders :
    (folderInsertFails.CreateFolders ⟨[⟨"0f0c1f6e", "folder1/test1234", "eA=="⟩], []⟩
        (utils.FolderFile "folder1/test1234")).2
        = ⟨some (DBError.other "context canceled"), 0⟩ ∧
      utils.FolderFile "folder1/test1234" = [("", "folder1/"), ("folder1/", "test1234")] ∧
      api.postTemplate (demoApiLib folderInsertFails) ⟨some "tenant1", "", "folder1/test1234", "x"⟩ ⟨[], []⟩
        = (⟨[⟨"0f0c1f6e", "folder1/test1234", "eA=="⟩], []⟩, ApiResponse.data 200 "0f0c1f6e") := by
  decide

/-- C16 amended: whenever `postTemplate` responds 200, the template row with the
slash-trimmed name was inserted without error, and the tables afterwards are
what one insert of the folder entries `FolderFile` derives from that name left
behind; the result of that insert is not examined. -/
theorem postTemplate_success (lib : ApiLib) (c : ApiCtx) (db : Tables) (id : String)
    (h : (api.postTemplate lib c db).2 = ApiResponse.data 200 id) :
    ∃ tenant reg db1 result,
      c.registry = some tenant ∧ lib.Reg tenant = some reg ∧ lib.NewUUID = Except.ok id ∧
      reg.CreateTemplate db ⟨id, trimSlash c.name, lib.EncodeToString c.body⟩ = (db1, result) ∧
      result.Error = none ∧
      (api.postTemplate lib c db).1
        = (reg.CreateFolders db1 (utils.FolderFile (trimSlash c.name))).1 := by
  unfold api.postTemplate at h ⊢
  split at h
  · simp at h
  · rename_i hname
    split at h
    · simp at h
    · rename_i tenant htenant
      split at h
      · simp at h
      · rename_i id1 huuid
        split at h
        · simp at h
        · rename_i reg hreg
          split at h
          rename_i db1 result hcreate
          split at h
          · split at h <;> simp at h
          · simp at h
          · rename_i herr
            simp only [ApiResponse.data.injEq, true_and] at h
            subst h
            refine ⟨tenant, reg, db1, result, htenant, hreg, huuid, hcreate, herr, ?_⟩
            simp [hname, htenant, hreg, huuid, hcreate, herr]

/-- C16 amended, at a concrete request on a database whose statements succeed:
the folder entries of the stored name are present afterwards. -/
theorem postTemplate_success_witness :
    (api.postTemplate (demoApiLib workingDB) ⟨some "tenant1", "", "/folder1/test1234", "x"⟩ ⟨[], []⟩)
        = (⟨[⟨"0f0c1f6e", "folder1/test1234", "eA=="⟩], [("", "folder1/"), ("folder1/", "test1234")]⟩,
            ApiResponse.data 200 "0f0c1f6e") ∧
      ∃ tenant reg db1 result,
        (⟨some "tenant1", "", "/folder1/test1234", "x"⟩ : ApiCtx).registry = some tenant ∧
        (demoApiLib workingDB).Reg tenant = some reg ∧
        (demoApiLib workingDB).NewUUID = Except.ok "0f0c1f6e" ∧
        reg.CreateTemplate ⟨[], []⟩
          ⟨"0f0c1f6e", trimSlash (⟨some "tenant1", "", "/folder1/test1234", "x"⟩ : ApiCtx).name,
            (demoApiLib workingDB).EncodeToString
              (⟨some "tenant1", "", "/folder1/test1234", "x"⟩ : ApiCtx).body⟩
          = (db1, result) ∧
        result.Error = none ∧
        (api.postTemplate (demoApiLib workingDB) ⟨some "tenant1", "", "/folder1/test1234", "x"⟩ ⟨[], []⟩).1
          = (reg.CreateFolders db1 (utils.FolderFile
              (trimSlash (⟨some "tenant1", "", "/folder1/test1234", "x"⟩ : ApiCtx).name))).1 :=
  ⟨by decide,
    postTemplate_success (demoApiLib workingDB) ⟨some "tenant1", "", "/folder1/test1234", "x"⟩
      ⟨[], []⟩
      "0f0c1f6e" (by decide)⟩

end Chore
